import Mathlib

/-!
# Verification of the pairwise connection protocol of `@localfirst/auth`

Shallow embedding of `src/packages/auth/src/connection/Connection.ts` and of
the collaborators it imports.  The repository snapshot contains only
`Connection.ts`; the modules `orderedDelivery.ts`, `deriveSharedKey.ts`,
`protocolMachine.ts`, `generateStarterKeys.ts` and `types.ts` are imported by
it but absent from the snapshot, so those are modelled from the specification
(each such definition carries a doc comment starting `Modelled from the
spec:`).  The `Team` object and the cryptographic primitives are external
collaborators (spec section 1 / section 6) and are modelled abstractly but
executably.
-/

namespace Auth

/-- A chain hash (heads, roots, link hashes are opaque strings on the wire). -/
abbrev Hash := String

/-- A keyset with secrets, as used for users and devices.  Only the fields the
connection protocol reads are modelled. -/
structure Keyset where
  encryptionPublicKey : String
  encryptionSecretKey : String
  signaturePublicKey : String
  signatureSecretKey : String
  deriving Repr, DecidableEq

/-- The local user identity (keypair, username). -/
structure User where
  userName : String
  keys : Keyset
  deriving Repr, DecidableEq

/-- The local device identity; its stable id is `user::device`. -/
structure Device where
  userName : String
  deviceName : String
  keys : Keyset
  deriving Repr, DecidableEq

/-- Modelled from the spec: `getDeviceId` from `src/device` (not in the
snapshot); the device's stable id is `user::device`. -/
def getDeviceId (d : Device) : String :=
  d.userName ++ "::" ++ d.deviceName

/-- Key type of an invitee: a prospective member or a prospective device. -/
inductive KeyType where
  | MEMBER
  | DEVICE
  deriving Repr, DecidableEq

/-- An invitee as named in an invitation: `{ type : MEMBER | DEVICE, name }`. -/
structure Invitee where
  type : KeyType
  name : String
  deriving Repr, DecidableEq

/-- Proof of invitation presented by an invitee: binds the invitee identity to
the invitation seed by a signature from the starter keys. -/
structure ProofOfInvitation where
  invitee : Invitee
  signature : String
  deriving Repr, DecidableEq

/-- An identity claim made in a HELLO message: `{ type: DEVICE, name:
"user::device" }`. -/
structure IdentityClaim where
  name : String
  deriving Repr, DecidableEq

/-- A nonce challenge issued in response to an identity claim. -/
structure Challenge where
  claimName : String
  nonce : String
  deriving Repr, DecidableEq

/-- The payload of an ERROR message (`{ message, details? }`). -/
structure ErrorPayload where
  message : String
  deriving Repr, DecidableEq

/-- Result of `team.lookupIdentity` (see `confirmIdentityExists` in
`Connection.ts`). -/
inductive IdentityLookupResult where
  | MEMBER_UNKNOWN
  | MEMBER_REMOVED
  | DEVICE_UNKNOWN
  | DEVICE_REMOVED
  | VALID_DEVICE
  deriving Repr, DecidableEq

/-- Result of `team.validateInvitation` (`{ isValid, error }`). -/
structure ValidationResult where
  isValid : Bool
  error : ErrorPayload
  deriving Repr, DecidableEq

/-- A member record as returned by `team.members(userName)`. -/
structure Member where
  userName : String
  keys : Keyset
  deriving Repr, DecidableEq

/-- An asymmetric-box ciphertext.  The box between the two honest connection
endpoints is modelled as transporting its plaintext; `asymmetric.decrypt` may
fail, which the code treats as fatal. -/
structure Cipher where
  secret : String
  ok : Bool
  deriving Repr, DecidableEq

/-- Model of `asymmetric.decrypt`: returns the plaintext of an authentic box
and fails on a corrupted one. -/
def asymmetricDecrypt (c : Cipher) : Option String :=
  if c.ok then some c.secret else none

/-- The external `Team` collaborator (spec section 6).  Membership data is
concrete so that `has` / `members` are executable; the chain-validation
verdicts the protocol consumes (`lookupIdentity`, `validateInvitation`,
`verifyIdentityProof`, `hasInvitation`, `getMissingLinks`) are function
fields, since the signature chain itself is out of scope. -/
structure Team where
  memberList : List Member
  lookupIdentityFn : IdentityClaim → IdentityLookupResult
  validateInvitationFn : ProofOfInvitation → ValidationResult
  verifyIdentityProofFn : Challenge → String → Bool
  hasInvitationFn : ProofOfInvitation → Bool
  getMissingLinksFn : Hash → List Hash → List Hash
  head : Hash
  root : Hash
  linkHashes : List Hash

/-- `team.members(userName)`: the member record, if present. -/
def Team.membersRec (t : Team) (userName : String) : Option Member :=
  t.memberList.find? (fun m => m.userName == userName)

/-- `team.has(userName)`. -/
def Team.has (t : Team) (userName : String) : Bool :=
  (t.membersRec userName).isSome

/-- `team.admit(proof)` (named `admitMember` here): records the invitee as a member (external effect on
the signature chain, modelled as extending the member list). -/
def Team.admitMember (t : Team) (proof : ProofOfInvitation) : Team :=
  { t with memberList :=
      t.memberList ++ [{ userName := proof.invitee.name,
                         keys := ⟨"", "", "", ""⟩ }] }

/-- `team.receiveMissingLinks(payload)`: folds the received links into the
chain; afterwards the local head is the sender's head. -/
def Team.receiveMissingLinks (t : Team) (head : Hash) (links : List Hash) : Team :=
  { t with head := head, linkHashes := t.linkHashes ++ links }

/-! ## Session key derivation (spec section 4.D) -/

/-- Modelled from the spec: a 256-bit hash over a string, standing in for the
external hash primitive (`deriveSharedKey.ts` is not in the snapshot).  A
simple executable mixing fold, truncated to 256 bits. -/
def hash256 (s : String) : Nat :=
  s.data.foldl (fun h c => (h * 131 + c.toNat + 7) % 2 ^ 256) 0

/-- Modelled from the spec: `deriveSharedKey(ourSeed, theirSeed)` derives the
256-bit session key as a hash of the sorted concatenation of the two seeds,
so that it is symmetric in its arguments (spec section 4.D). -/
def deriveSharedKey (s1 s2 : String) : Nat :=
  hash256 (min s1 s2 ++ max s1 s2)

/-! ## Invitation helpers (spec section 4.B) -/

/-- Normalization of a single seed character: `+` and space are equivalent
and case is ignored. -/
def normalizeChar (c : Char) : Char :=
  if c = '+' then ' ' else c.toLower

/-- Modelled from the spec: invitation seeds are normalized (lowercase,
`+`/space equivalence) before any derivation, so human transcription is
tolerated. -/
def normalizeSeed (s : String) : String :=
  ⟨s.data.map normalizeChar⟩

/-- Modelled from the spec: `generateStarterKeys(invitee, seed)` from
`src/invitation/generateStarterKeys` (not in the snapshot) — the deterministic
keypair derived from the invitation seed, used by a newcomer so the inviter
can recognize them. -/
def generateStarterKeys (invitee : Invitee) (seed : String) : Keyset :=
  let base := "starter." ++ invitee.name ++ "." ++ normalizeSeed seed
  { encryptionPublicKey := "EPK." ++ base
    encryptionSecretKey := "ESK." ++ base
    signaturePublicKey := "SPK." ++ base
    signatureSecretKey := "SSK." ++ base }

/-- Modelled from the spec: `invitations.generateProof(seed, invitee)` from
`src/invitation` (not in the snapshot) — binds the invitee identity to the
normalized seed by a signature from the starter keys. -/
def generateProof (seed : String) (invitee : Invitee) : ProofOfInvitation :=
  { invitee := invitee
    signature := "POI." ++ invitee.name ++ "." ++ normalizeSeed seed }

/-! ## Identity challenge helpers (spec section 4.C) -/

/-- Modelled from the spec: `identity.challenge(claim)` pairs the claim with a
nonce (the nonce is drawn from the random pool carried in the context, since
randomness is external). -/
def identityChallenge (claim : IdentityClaim) (nonce : String) : Challenge :=
  { claimName := claim.name, nonce := nonce }

/-- Modelled from the spec: `identity.prove(challenge, keys)` signs the
serialized challenge with the device's signature keys. -/
def identityProve (ch : Challenge) (keys : Keyset) : String :=
  "IDSIG." ++ ch.claimName ++ "." ++ ch.nonce ++ "." ++ keys.signatureSecretKey

/-! ## The wire message set (spec section 4.G / `connection/message.ts`) -/

/-- The connection message union (`ConnectionMessage` in the source).  The
`timeout` constructor models the per-phase timeout timer event that the
machine's global handler turns into `failTimeout` (spec: "any ERROR message,
or timeout ... transitions to failure"); it never travels on the wire. -/
inductive Message where
  | ready
  | hello (identityClaim : Option IdentityClaim)
      (proofOfInvitation : Option ProofOfInvitation)
  | acceptInvitation (chain : Team)
  | challengeIdentity (challenge : Challenge)
  | proveIdentity (challenge : Challenge) (proof : String)
  | acceptIdentity
  | update (root : Hash) (head : Hash) (hashes : List Hash)
  | missingLinks (head : Hash) (links : List Hash)
  | localUpdate (head : Hash)
  | seed (encryptedSeed : Cipher)
  | encryptedMessage (payload : String)
  | disconnect
  | error (payload : ErrorPayload)
  | reconnect
  | timeout

/-- A message tagged with the sender's sequential index
(`NumberedConnectionMessage`). -/
structure NumberedMessage where
  index : Nat
  msg : Message

/-- Lifecycle events emitted to external listeners (spec section 4.F
observables; the per-transition `change` event is not modelled). -/
inductive LEvent where
  | connectedEv
  | joinedEv
  | updatedEv
  | disconnectedEv
  | messageEv (plaintext : String)

/-! ## Connection context (spec section 3 / `connection/types.ts`) -/

/-- The mutable connection context.  `randomPool` models the stream of values
produced by the external `randomKey()` primitive (drawn by `challengeIdentity`
and `generateSeed`). -/
structure Context where
  user : Option User
  device : Device
  invitee : Option Invitee
  invitationSeed : Option String
  team : Option Team
  theirIdentityClaim : Option IdentityClaim
  theyHaveInvitation : Option Bool
  theirProofOfInvitation : Option ProofOfInvitation
  peer : Option Member
  challenge : Option Challenge
  seed : Option String
  theirEncryptedSeed : Option Cipher
  sessionKey : Option Nat
  theirHead : Option Hash
  error : Option ErrorPayload
  randomPool : List String

/-- `isMember` from `Connection.ts` (line 669): the context has a team. -/
def isMember (ctx : Context) : Bool :=
  ctx.team.isSome

/-- Modelled from the spec: `hasInvitee` from `connection/types.ts` (not in
the snapshot); per spec section 3, `invitee` and `invitationSeed` are present
iff this side is joining via invitation. -/
def hasInvitee (ctx : Context) : Bool :=
  ctx.invitee.isSome && ctx.invitationSeed.isSome

/-- Draw the next value from the external randomness pool. -/
def Context.drawRandom (ctx : Context) : String × Context :=
  match ctx.randomPool with
  | [] => ("", ctx)
  | r :: rest => (r, { ctx with randomPool := rest })

/-! ## The protocol state machine

Modelled from the spec: `protocolMachine.ts` is not in the snapshot, so the
hierarchical machine of spec section 4.E is embedded as a flat state type.
The spec's parallel `invitation` / `authenticating` regions of `connecting`
become an `InvPhase` and an `AuthProgress` component; mutual authentication
(each side both answers the peer's challenge and verifies the peer's proof)
is tracked by the boolean flags of `AuthProgress`.  The actions and guards
are translated from `Connection.ts` (lines 226-628), which is in the
snapshot. -/

/-- Progress of the invitation region of `connecting`: an invitee waits for
`ACCEPT_INVITATION` (`awaitingTeam`); a side without invitation has nothing
to do; a joined invitee is settled (`invDone`). -/
inductive InvPhase where
  | awaitingTeam
  | noInvitation
  | invDone
  deriving Repr, DecidableEq

/-- The invitation region blocks entry into `synchronizing` only while the
invitee is still waiting to be admitted. -/
def InvPhase.settled : InvPhase → Bool
  | .awaitingTeam => false
  | _ => true

/-- Progress of the mutual-authentication region of `connecting`. -/
structure AuthProgress where
  gotHello : Bool
  proved : Bool
  acceptedTheirs : Bool
  theyAcceptedOurs : Bool
  deriving Repr, DecidableEq

/-- Fresh authentication progress on entering `connecting`. -/
def AuthProgress.init : AuthProgress := ⟨false, false, false, false⟩

/-- The machine states (spec section 4.E, flattened). -/
inductive MState where
  | disconnected
  | connecting (inv : InvPhase) (auth : AuthProgress)
  | synchronizing
  | negotiating
  | connected
  | failure
  deriving Repr, DecidableEq

/-- The result of one machine step: new state, new context, outbound messages
(handed to `sendMessage`), lifecycle events emitted, and whether a terminal
state was reached. -/
structure StepResult where
  state : MState
  ctx : Context
  out : List Message
  events : List LEvent
  done : Bool

/-- An event that is ignored in the current state (XState drops unhandled
events). -/
def stayR (s : MState) (ctx : Context) : StepResult :=
  ⟨s, ctx, [], [], false⟩

/-- The `createError`/`fail` path of `Connection.ts` (lines 212-223): build
the error payload, record it in the context, send exactly one outbound ERROR
to the peer, and force the terminal `failure` state, whose entry fires
`onDisconnected` (spec sections 4.E and 7). -/
def failWithOut (ctx : Context) (out : List Message) (msg : String) : StepResult :=
  let p : ErrorPayload := ⟨msg⟩
  ⟨.failure, { ctx with error := some p }, out ++ [.error p], [.disconnectedEv], true⟩

/-- `receiveError` (line 527): an ERROR from the peer records the payload and
terminates in `failure`; no outbound ERROR is echoed. -/
def receiveErrorStep (ctx : Context) (p : ErrorPayload) : StepResult :=
  ⟨.failure, { ctx with error := some p }, [], [.disconnectedEv], true⟩

/-- `myProofOfInvitation` (lines 644-648): generate the proof from the
invitation seed; both fields are asserted by the source. -/
def myProofOfInvitation (ctx : Context) : Option ProofOfInvitation :=
  match ctx.invitationSeed, ctx.invitee with
  | some s, some i => some (generateProof s i)
  | _, _ => none

/-- `iHaveInvitation` guard (line 567). -/
def iHaveInvitation (ctx : Context) : Bool :=
  hasInvitee ctx && !isMember ctx

/-- The characters before the first `::` separator. -/
def takeUntilColons : List Char → List Char
  | [] => []
  | ':' :: ':' :: _ => []
  | c :: rest => c :: takeUntilColons rest

/-- `parseDeviceId` from `src/device`: the user-name part of `user::device`. -/
def parseUserName (deviceId : String) : String :=
  ⟨takeUntilColons deviceId.data⟩

/-- The HELLO message built by `sendHello` (lines 230-244): the identity claim
for our device, plus the proof of invitation only when we have an invitee and
our team is not yet set. -/
def sendHelloMessage (ctx : Context) : Message :=
  .hello (some ⟨getDeviceId ctx.device⟩)
    (if hasInvitee ctx && ctx.team.isNone then myProofOfInvitation ctx else none)

/-- The UPDATE message built by `sendUpdate` (lines 407-415). -/
def sendUpdateMsg (t : Team) : Message :=
  .update t.root t.head t.linkHashes

/-- On READY the machine leaves the initial `disconnected` state and enters
`connecting`; the invitation region starts in `waiting` iff `iHaveInvitation`
(spec section 4.E), and `claimingIdentity`'s entry action `sendHello` emits
the HELLO. -/
def enterConnecting (ctx : Context) : StepResult :=
  ⟨.connecting (if iHaveInvitation ctx then InvPhase.awaitingTeam else InvPhase.noInvitation)
      .init,
   ctx, [sendHelloMessage ctx], [], false⟩

/-- When the invitation region is settled and both identity proofs have been
accepted, `connecting` completes into `synchronizing`, whose entry action
`sendUpdate` emits our chain summary (spec section 4.E). -/
def maybeSync (inv : InvPhase) (auth : AuthProgress) (ctx : Context)
    (out : List Message) (events : List LEvent) : StepResult :=
  if inv.settled && auth.acceptedTheirs && auth.theyAcceptedOurs then
    match ctx.team with
    | some t => ⟨.synchronizing, ctx, out ++ [sendUpdateMsg t], events, false⟩
    | none => failWithOut ctx out "assertion failed: team is required to synchronize"
  else
    ⟨.connecting inv auth, ctx, out, events, false⟩

/-- `confirmIdentityExists` (lines 317-353): when a team and an identity claim
are present, map the team's `lookupIdentity` verdict to an error message;
missing team or claim is skipped silently. -/
def confirmError (tm : Option Team) (claim : Option IdentityClaim) : Option String :=
  match tm, claim with
  | none, _ => none
  | _, none => none
  | some t, some cl =>
    match t.lookupIdentityFn cl with
    | .MEMBER_UNKNOWN => some (parseUserName cl.name ++ " is not a member of this team.")
    | .MEMBER_REMOVED => some (parseUserName cl.name ++ " was removed from this team.")
    | .DEVICE_UNKNOWN => some (parseUserName cl.name ++ " does not have that device.")
    | .DEVICE_REMOVED => some (parseUserName cl.name ++ " has a removed device.")
    | .VALID_DEVICE => none

/-- The inviter-side `validating` branch of the invitation region: a HELLO
carrying a proof triggers `failNeitherIsMember` when both sides hold
invitations, otherwise `validateInvitation`; a valid proof is admitted and
answered with `ACCEPT_INVITATION{chain}`, an invalid one records the
validation error and fails via `rejectInvitation` (lines 278-290, 535-541,
574-585). -/
def handleInvitationPart (ctx : Context) (proof : ProofOfInvitation) :
    Except StepResult (Context × List Message) :=
  if iHaveInvitation ctx then
    .error (failWithOut ctx []
      "can't connect because neither one is a member.")
  else
    match ctx.team with
    | none => .error (failWithOut ctx []
        "assertion failed: team is required to validate an invitation")
    | some t =>
      if (t.validateInvitationFn proof).isValid then
        .ok ({ ctx with team := some (Team.admitMember t proof) },
             [.acceptInvitation (Team.admitMember t proof)])
      else
        .error (failWithOut { ctx with error := some (t.validateInvitationFn proof).error }
          [] ("invitation didn't work. " ++ (t.validateInvitationFn proof).error.message))

/-- The `challengeIdentity` tail of the HELLO handler (lines 355-365): draw a
nonce, record and emit the challenge, then check for completion of
`connecting`. -/
def helloChallenge (inv : InvPhase) (auth : AuthProgress) (ctx : Context)
    (claim : Option IdentityClaim) (out : List Message) : StepResult :=
  match claim with
  | none => failWithOut ctx out "assertion failed: no identity claim to challenge"
  | some cl =>
    match ctx.drawRandom with
    | (nonce, ctx2) =>
      maybeSync inv { auth with gotHello := true }
        { ctx2 with challenge := some (identityChallenge cl nonce) }
        (out ++ [.challengeIdentity (identityChallenge cl nonce)]) []

/-- The HELLO handler after `receiveHello` has updated the context:
`confirmIdentityExists` may fail, the invitation region validates a presented
proof, then `challengeIdentity` runs. -/
def helloRest (inv : InvPhase) (auth : AuthProgress) (ctx : Context)
    (claim : Option IdentityClaim) (proof : Option ProofOfInvitation) : StepResult :=
  match confirmError ctx.team claim with
  | some msg => failWithOut ctx [] msg
  | none =>
    match proof with
    | some p =>
      match handleInvitationPart ctx p with
      | .error r => r
      | .ok (ctx2, out) => helloChallenge inv auth ctx2 claim out
    | none => helloChallenge inv auth ctx claim []

/-- The `receiveHello` context update (lines 246-274): capture the peer's
identity claim, whether they hold an invitation, and their proof. -/
def receiveHelloCtx (ctx : Context) (claim : Option IdentityClaim)
    (proof : Option ProofOfInvitation) : Context :=
  { ctx with theirIdentityClaim := claim
             theyHaveInvitation := some proof.isSome
             theirProofOfInvitation := proof }

/-- Handling a HELLO in `connecting`: `receiveHello` captures the peer's
claim and proof (lines 246-274), then `helloRest` runs the identity
confirmation, invitation validation and challenge issuance. -/
def handleHello (inv : InvPhase) (auth : AuthProgress) (ctx : Context)
    (claim : Option IdentityClaim) (proof : Option ProofOfInvitation) : StepResult :=
  helloRest inv auth (receiveHelloCtx ctx claim proof) claim proof

/-- Handling CHALLENGE_IDENTITY: `proveIdentity` signs the challenge with the
device keys and answers with PROVE_IDENTITY (lines 367-375). -/
def handleChallenge (inv : InvPhase) (auth : AuthProgress) (ctx : Context)
    (ch : Challenge) : StepResult :=
  match ctx.user with
  | none => failWithOut ctx [] "assertion failed: user is required to prove identity"
  | some _ =>
    maybeSync inv { auth with proved := true } ctx
      [.proveIdentity ch (identityProve ch ctx.device.keys)] []

/-- Handling PROVE_IDENTITY: guard `identityProofIsValid` (lines 602-606); on
success `acceptIdentity` and `storePeer` run (lines 377-403), on failure
`rejectIdentityProof` (lines 531-533). -/
def handleProve (inv : InvPhase) (auth : AuthProgress) (ctx : Context)
    (ch : Challenge) (pf : String) : StepResult :=
  match ctx.team with
  | none => failWithOut ctx [] "assertion failed: team is required to verify identity"
  | some t =>
    if t.verifyIdentityProofFn ch pf then
      match ctx.user, ctx.theirIdentityClaim with
      | some _, some cl =>
        maybeSync inv { auth with acceptedTheirs := true }
          { ctx with peer := if t.has (parseUserName cl.name)
                             then t.membersRec (parseUserName cl.name) else none }
          [.acceptIdentity] []
      | _, _ => failWithOut ctx [] "assertion failed: user and identity claim required"
    else
      failWithOut ctx [] "can't verify the proof of identity."

/-- Handling ACCEPT_IDENTITY: the peer has accepted our identity proof. -/
def handleAcceptIdentity (inv : InvPhase) (auth : AuthProgress) (ctx : Context) :
    StepResult :=
  maybeSync inv { auth with theyAcceptedOurs := true } ctx [] []

/-- Modelled from the spec: `team.join(proof, seed)` of the external Team
returns the invitee's real user record reconstructed on the received chain. -/
def Team.joinUser (_t : Team) (proof : ProofOfInvitation) (_seedv : String) : User :=
  { userName := proof.invitee.name
    keys := ⟨"EPK.m." ++ proof.invitee.name, "ESK.m." ++ proof.invitee.name,
             "SPK.m." ++ proof.invitee.name, "SSK.m." ++ proof.invitee.name⟩ }

/-- Handling ACCEPT_INVITATION on the invitee side (`waiting`): the guard
`joinedTheRightTeam` checks that the received chain contains our own
invitation (lines 587-592); `joinTeam` then installs the returned user and
team into the context (lines 292-304); a wrong team fails via `rejectTeam`
(lines 543-546). -/
def handleAcceptInvitation (inv : InvPhase) (auth : AuthProgress) (ctx : Context)
    (chain : Team) : StepResult :=
  match inv with
  | .awaitingTeam =>
    match myProofOfInvitation ctx, ctx.invitationSeed with
    | some myProof, some seedv =>
      if chain.hasInvitationFn myProof then
        maybeSync .invDone auth
          { ctx with user := some (chain.joinUser myProof seedv), team := some chain }
          [] [.joinedEv]
      else
        failWithOut ctx [] "was admitted to a team but it isn't the team invited to."
    | _, _ => failWithOut ctx [] "assertion failed: invitation seed and invitee required"
  | _ => stayR (.connecting inv auth) ctx

/-- The guard cascade at the end of each `synchronizing` step (spec section
4.E): `peerWasRemoved` fails fatally (lines 596-600, 548); equal heads move
on, entering `negotiating` (entry `generateSeed`, `sendSeed`, lines 456-477)
when `dontHaveSessionkey` (line 627) and re-entering `connected` otherwise;
different heads rest in `synchronizing`. -/
def syncCheck (ctx : Context) (theirHeadForGuard : Option Hash)
    (out : List Message) (events : List LEvent) : StepResult :=
  match ctx.team, ctx.peer with
  | some t, some peer =>
    if !(t.has peer.userName) then
      failWithOut ctx out (peer.userName ++ " was removed from the team.")
    else if theirHeadForGuard == some t.head then
      if ctx.sessionKey.isNone then
        match ctx.user with
        | none => failWithOut ctx out "assertion failed: user is required to send a seed"
        | some _ =>
          match ctx.drawRandom with
          | (sv, ctx2) =>
            ⟨.negotiating, { ctx2 with seed := some sv },
             out ++ [.seed ⟨sv, true⟩], events, false⟩
      else
        ⟨.connected, ctx, out, events ++ [.connectedEv], false⟩
    else
      ⟨.synchronizing, ctx, out, events, false⟩
  | _, _ => failWithOut ctx out "assertion failed: team and peer required to synchronize"

/-- UPDATE in `synchronizing`: `recordTheirHead` and `sendMissingLinks`
(lines 417-434), then the guard cascade with the head taken from the message
(lines 610-623). -/
def handleSyncUpdate (ctx : Context) (head : Hash) (hashes : List Hash) : StepResult :=
  match ctx.team with
  | none => failWithOut ctx [] "assertion failed: team is required to synchronize"
  | some t =>
    syncCheck { ctx with theirHead := some head } (some head)
      (if (t.getMissingLinksFn head hashes).isEmpty then []
       else [.missingLinks t.head (t.getMissingLinksFn head hashes)]) []

/-- MISSING_LINKS in `synchronizing`: `receiveMissingLinks` folds the links
into the team and `sendUpdate` answers with our new summary (lines 436-442),
then the guard cascade with the head taken from the message. -/
def handleSyncMissingLinks (ctx : Context) (head : Hash) (links : List Hash) : StepResult :=
  match ctx.team with
  | none => failWithOut ctx [] "assertion failed: team is required to synchronize"
  | some t =>
    syncCheck { ctx with team := some (t.receiveMissingLinks head links) } (some head)
      [sendUpdateMsg (t.receiveMissingLinks head links)] []

/-- LOCAL_UPDATE in `synchronizing`: the local replica changed (the event
carries its new head, reflecting the external mutation of the live team
reference); `sendUpdate` runs and the guard cascade uses the last recorded
peer head (lines 444-452, 610-623). -/
def handleSyncLocal (ctx : Context) (head : Hash) : StepResult :=
  match ctx.team with
  | none => failWithOut ctx [] "assertion failed: team is required to synchronize"
  | some t =>
    syncCheck { ctx with team := some { t with head := head } } ctx.theirHead
      [sendUpdateMsg { t with head := head }] []

/-- UPDATE in `connected` re-enters `synchronizing` (spec section 4.E line
"on UPDATE → synchronizing"): the peer's head is recorded, the entry action
`sendUpdate` runs, and the guard cascade decides where the machine rests. -/
def handleConnectedUpdate (ctx : Context) (head : Hash) : StepResult :=
  match ctx.team with
  | none => failWithOut ctx [] "assertion failed: team is required to synchronize"
  | some t =>
    syncCheck { ctx with theirHead := some head } (some head) [sendUpdateMsg t] []

/-- LOCAL_UPDATE in `connected` re-enters `synchronizing` with our changed
replica. -/
def handleConnectedLocal (ctx : Context) (head : Hash) : StepResult :=
  match ctx.team with
  | none => failWithOut ctx [] "assertion failed: team is required to synchronize"
  | some t =>
    syncCheck { ctx with team := some { t with head := head } } ctx.theirHead
      [sendUpdateMsg { t with head := head }] []

/-- SEED in `negotiating`: `receiveSeed` stores the ciphertext (lines
479-483) and `deriveSharedKey` decrypts the peer's seed and derives the
session key (lines 485-514); a decryption failure is fatal (spec section
4.E). -/
def handleSeed (ctx : Context) (c : Cipher) : StepResult :=
  match ctx.user, ctx.seed, ctx.peer with
  | some _, some ourSeed, some _ =>
    match asymmetricDecrypt c with
    | some theirSeed =>
      ⟨.connected, { ctx with theirEncryptedSeed := some c,
                              sessionKey := some (deriveSharedKey ourSeed theirSeed) },
       [], [.connectedEv], false⟩
    | none => failWithOut { ctx with theirEncryptedSeed := some c } [] "decryption failed"
  | _, _, _ => failWithOut { ctx with theirEncryptedSeed := some c } []
      "assertion failed: user, seed and peer required"

/-- ENCRYPTED_MESSAGE in `connected`: `receiveEncryptedMessage` decrypts with
the session key and emits the `message` event (lines 518-523). -/
def handleEncrypted (ctx : Context) (p : String) : StepResult :=
  match ctx.sessionKey with
  | some _ => ⟨.connected, ctx, [], [.messageEv p], false⟩
  | none => failWithOut ctx [] "assertion failed: session key required"

/-- One step of the protocol machine: dispatch an event against the current
state (spec section 4.E).  `failure` is final; an ERROR event is handled
globally by `receiveError`; a phase timeout fails globally via `failTimeout`
(line 550); unhandled events are dropped, as XState does. -/
def mstep (s : MState) (ctx : Context) (m : Message) : StepResult :=
  match s, m with
  | .failure, _ => stayR .failure ctx
  | _, .error p => receiveErrorStep ctx p
  | _, .timeout => failWithOut ctx [] "connection timed out."
  | .disconnected, .ready => enterConnecting ctx
  | .disconnected, _ => stayR .disconnected ctx
  | .connecting inv auth, .hello claim proof => handleHello inv auth ctx claim proof
  | .connecting inv auth, .challengeIdentity ch => handleChallenge inv auth ctx ch
  | .connecting inv auth, .proveIdentity ch pf => handleProve inv auth ctx ch pf
  | .connecting inv auth, .acceptIdentity => handleAcceptIdentity inv auth ctx
  | .connecting inv auth, .acceptInvitation chain => handleAcceptInvitation inv auth ctx chain
  | .connecting inv auth, _ => stayR (.connecting inv auth) ctx
  | .synchronizing, .update _ head hashes => handleSyncUpdate ctx head hashes
  | .synchronizing, .missingLinks head links => handleSyncMissingLinks ctx head links
  | .synchronizing, .localUpdate head => handleSyncLocal ctx head
  | .synchronizing, _ => stayR .synchronizing ctx
  | .negotiating, .seed c => handleSeed ctx c
  | .negotiating, _ => stayR .negotiating ctx
  | .connected, .encryptedMessage p => handleEncrypted ctx p
  | .connected, .update _ head _ => handleConnectedUpdate ctx head
  | .connected, .localUpdate head => handleConnectedLocal ctx head
  | .connected, .disconnect => ⟨.disconnected, ctx, [], [.disconnectedEv], true⟩
  | .connected, _ => stayR .connected ctx

/-- The interpreted machine as the XState interpreter sees it: current state,
context, and whether a final state has been reached (after which events are
ignored). -/
structure MachineState where
  state : MState
  ctx : Context
  done : Bool

/-- One event through the interpreter: ignored once done. -/
def machineStep (st : MachineState) (m : Message) : MachineState :=
  if st.done then st
  else
    let r := mstep st.state st.ctx m
    { state := r.state, ctx := r.ctx, done := st.done || r.done }

/-- A whole event sequence through the interpreter. -/
def machineRun (st : MachineState) (ms : List Message) : MachineState :=
  ms.foldl machineStep st

/-! ## Ordered delivery (spec section 4.A)

Modelled from the spec: `orderedDelivery.ts` is not in the snapshot.  The
component keeps a mapping from index to pending messages and a cursor
`nextExpected` initialized to 0; `Connection.ts` persists the mapping in
`incomingMessageQueue`, and the cursor is carried alongside it here. -/

/-- Look up the pending message with a given index. -/
def lookupQ (q : List NumberedMessage) (i : Nat) : Option NumberedMessage :=
  q.find? (fun m => m.index == i)

/-- Remove the pending message(s) with a given index. -/
def removeQ (q : List NumberedMessage) (i : Nat) : List NumberedMessage :=
  q.filter (fun m => m.index != i)

/-- Map update: store a message under its index. -/
def insertQ (q : List NumberedMessage) (m : NumberedMessage) : List NumberedMessage :=
  m :: removeQ q m.index

/-- Drain the contiguous run of stored messages starting at cursor `n`:
returns the remaining mapping, the advanced cursor, and the drained messages
in index order.  The fuel bounds the number of drain steps; callers pass the
queue length, which suffices since every drained message leaves the queue. -/
def drainQ : Nat → List NumberedMessage → Nat →
    List NumberedMessage × Nat × List NumberedMessage
  | 0, q, n => (q, n, [])
  | fuel + 1, q, n =>
    match lookupQ q n with
    | some m =>
      match drainQ fuel (removeQ q n) (n + 1) with
      | (q2, n2, ms) => (q2, n2, m :: ms)
    | none => (q, n, [])

/-- Modelled from the spec: `orderedDelivery(queue, incoming)` — drop an
already-consumed index, store an index ahead of the cursor, and on the
expected index produce it, advance the cursor and drain the contiguous run
(spec section 4.A).  Returns the new mapping, the new cursor and the ready
messages. -/
def orderedDelivery (q : List NumberedMessage) (next : Nat) (m : NumberedMessage) :
    List NumberedMessage × Nat × List NumberedMessage :=
  if m.index < next then (q, next, [])
  else if next < m.index then (insertQ q m, next, [])
  else
    match drainQ q.length q (next + 1) with
    | (q2, n2, ms) => (q2, n2, m :: ms)

/-! ## The connection driver (`Connection.ts`) -/

/-- The observable state of a `Connection`: the flags and counters of the
class (lines 48-53), the interpreted machine, the delivery buffer, and trace
fields recording every outbound message (`outbox`), every event sent to the
machine (`fsmLog`), every buffered message forwarded to the machine by
`deliver` (`deliveredLog`), and every lifecycle event emitted (`events`). -/
structure Conn where
  peerUserName : Option String
  started : Bool
  done : Bool
  mstate : MState
  ctx : Context
  outgoingMessageIndex : Nat
  incomingMessageQueue : List NumberedMessage
  nextExpected : Nat
  outbox : List NumberedMessage
  fsmLog : List Message
  deliveredLog : List NumberedMessage
  events : List LEvent

/-- The `sendMessage` wrapper of the constructor (lines 71-77): add the next
sequential index to the outgoing message and hand it to the transport. -/
def Conn.sendMessage (c : Conn) (m : Message) : Conn :=
  { c with outbox := c.outbox ++ [⟨c.outgoingMessageIndex, m⟩],
           outgoingMessageIndex := c.outgoingMessageIndex + 1 }

/-- `machine.send`: run one step of the machine, record its transitions,
emit its lifecycle events, and send its outbound messages. -/
def Conn.machineSend (c : Conn) (m : Message) : Conn :=
  let r := mstep c.mstate c.ctx m
  let c' := { c with mstate := r.state, ctx := r.ctx, done := c.done || r.done,
                     fsmLog := c.fsmLog ++ [m], events := c.events ++ r.events }
  r.out.foldl Conn.sendMessage c'

/-- The body of `deliver`'s forwarding loop (lines 202-207): a ready message
reaches the machine only while the connection is started and the machine is
not done. -/
def forwardOne (acc : Conn) (r : NumberedMessage) : Conn :=
  if acc.started && !acc.done then
    let acc' := acc.machineSend r.msg
    { acc' with deliveredLog := acc'.deliveredLog ++ [r] }
  else acc

/-- `Connection.deliver` (lines 191-208): push the incoming message through
the ordered-delivery buffer, persist the updated queue, and forward the ready
messages to the machine unless stopped. -/
def Conn.deliver (c : Conn) (m : NumberedMessage) : Conn :=
  let r := orderedDelivery c.incomingMessageQueue c.nextExpected m
  let c1 := { c with incomingMessageQueue := r.1, nextExpected := r.2.1 }
  r.2.2.foldl forwardOne c1

/-- `Connection.start` (lines 95-108): on a fresh connection start the
machine, emit READY to the peer, and replay the stored messages in order
through `deliver`; on a started connection send RECONNECT to the machine.
(The stored messages arrive as already-parsed numbered messages; the JSON
codec is external.) -/
def Conn.start (c : Conn) (storedMessages : List NumberedMessage) : Conn :=
  if !c.started then
    let c1 := { c with started := true }
    let c2 := c1.sendMessage .ready
    storedMessages.foldl Conn.deliver c2
  else
    c.machineSend .reconnect

/-- `Connection.stop` (lines 111-122): if running, send DISCONNECT to the
peer and to the local machine; then stop the machine and mark it done. -/
def Conn.stop (c : Conn) : Conn :=
  let c1 :=
    if c.started && !c.done then (c.sendMessage .disconnect).machineSend .disconnect
    else c
  { c1 with done := true }

/-- The constructor's context preparation (lines 63-69): an unjoined invitee
who carries a user identity gets the starter keys derived from the invitation
seed written into `context.user.keys`; nothing else in the context is
touched. -/
def starterContext (ctx : Context) : Context :=
  match ctx.team, ctx.invitee, ctx.invitationSeed, ctx.user with
  | none, some inv, some seedv, some u =>
    { ctx with user := some { u with keys := generateStarterKeys inv seedv } }
  | _, _, _, _ => ctx

/-- `new Connection({sendMessage, context, peerUserName})` (lines 55-92):
the machine is created but not started; counters and buffers start empty. -/
def mkConnection (peerUserName : Option String) (ctx : Context) : Conn :=
  { peerUserName := peerUserName
    started := false
    done := false
    mstate := .disconnected
    ctx := starterContext ctx
    outgoingMessageIndex := 0
    incomingMessageQueue := []
    nextExpected := 0
    outbox := []
    fsmLog := []
    deliveredLog := []
    events := [] }

/-! ### Getters (lines 124-179) -/

/-- The `state` getter (lines 134-138). -/
def Conn.stateGet (c : Conn) : MState :=
  if !c.started then .disconnected else c.mstate

/-- The `userName` getter (lines 124-132). -/
def Conn.userNameGet (c : Conn) : String :=
  if !c.started then "(not started)"
  else
    match c.ctx.user with
    | some u => u.userName
    | none =>
      if hasInvitee c.ctx then (c.ctx.invitee.map (fun i => i.name)).getD "unknown"
      else "unknown"

/-- The `context` getter (lines 140-143): throws before `start()`. -/
def Conn.contextGet (c : Conn) : Except String Context :=
  if !c.started then .error "Cannot get context; machine not started"
  else .ok c.ctx

/-- The `user` getter (lines 145-147): reads `this.context`, so it propagates
the not-started error. -/
def Conn.userGet (c : Conn) : Except String (Option User) :=
  c.contextGet.map (fun ctx => ctx.user)

/-- The `error` getter (lines 149-154). -/
def Conn.errorGet (c : Conn) : Except String (Option ErrorPayload) :=
  c.contextGet.map (fun ctx => ctx.error)

/-- The `team` getter (lines 156-161). -/
def Conn.teamGet (c : Conn) : Except String (Option Team) :=
  c.contextGet.map (fun ctx => ctx.team)

/-- The `sessionKey` getter (lines 163-168). -/
def Conn.sessionKeyGet (c : Conn) : Except String (Option Nat) :=
  c.contextGet.map (fun ctx => ctx.sessionKey)

/-- The `peerName` getter (lines 170-179). -/
def Conn.peerNameGet (c : Conn) : String :=
  if !c.started then "(not started)"
  else
    match c.peerUserName with
    | some n => n
    | none =>
      match c.ctx.peer with
      | some p => p.userName
      | none =>
        match c.ctx.theirIdentityClaim with
        | some cl => cl.name
        | none =>
          match c.ctx.theirProofOfInvitation with
          | some pr => pr.invitee.name
          | none => "?"

/-- The proof-of-invitation field of a HELLO message (observable on the
wire). -/
def helloProofField : Message → Option ProofOfInvitation
  | .hello _ p => p
  | _ => none

/-- Is a wire message an ERROR message? -/
def isErrorMsg : Message → Bool
  | .error _ => true
  | _ => false

/-- Is a wire message a READY message? -/
def isReadyMsg : Message → Bool
  | .ready => true
  | _ => false

/-- The postcondition shared by every local failure path (spec sections 4.E
and 7): an error payload is recorded, exactly one outbound ERROR goes to the
peer, the machine rests in terminal `failure`, and `onDisconnected` fired. -/
def FailurePost (r : StepResult) : Prop :=
  r.state = .failure ∧ r.ctx.error.isSome = true ∧
  r.out.countP (fun m => isErrorMsg m) = 1 ∧
  LEvent.disconnectedEv ∈ r.events ∧ r.done = true

/-! ## Concrete example data (used by witnesses and counterexamples) -/

/-- A deterministic example keyset. -/
def exKeys (b : String) : Keyset :=
  ⟨"EPK." ++ b, "ESK." ++ b, "SPK." ++ b, "SSK." ++ b⟩

/-- Example local user. -/
def aliceUser : User := ⟨"alice", exKeys "alice"⟩

/-- Example local device. -/
def aliceDevice : Device := ⟨"alice", "laptop", exKeys "alice.laptop"⟩

/-- Example peer member record. -/
def bobMember : Member := ⟨"bob", exKeys "bob"⟩

/-- Example member record for the local user. -/
def aliceMember : Member := ⟨"alice", exKeys "alice"⟩

/-- An example team on which every chain-level verdict succeeds. -/
def exTeam : Team :=
  { memberList := [aliceMember, bobMember]
    lookupIdentityFn := fun _ => .VALID_DEVICE
    validateInvitationFn := fun _ => ⟨true, ⟨""⟩⟩
    verifyIdentityProofFn := fun _ _ => true
    hasInvitationFn := fun _ => true
    getMissingLinksFn := fun _ _ => []
    head := "h0"
    root := "r0"
    linkHashes := ["r0", "h0"] }

/-- An example initial context for a member (already on the team). -/
def exCtxMember : Context :=
  { user := some aliceUser
    device := aliceDevice
    invitee := none
    invitationSeed := none
    team := some exTeam
    theirIdentityClaim := none
    theyHaveInvitation := none
    theirProofOfInvitation := none
    peer := none
    challenge := none
    seed := none
    theirEncryptedSeed := none
    sessionKey := none
    theirHead := none
    error := none
    randomPool := ["nonceA", "seedA"] }

/-- An example initial context for an unjoined invitee who carries a
provisional user identity. -/
def exCtxInvitee : Context :=
  { exCtxMember with
    user := some ⟨"bob", exKeys "bob.provisional"⟩
    device := ⟨"bob", "laptop", exKeys "bob.laptop"⟩
    invitee := some ⟨.MEMBER, "bob"⟩
    invitationSeed := some "passw0rd"
    team := none }

/-- The peer's identity claim in the example run. -/
def bobClaim : IdentityClaim := ⟨"bob::laptop"⟩

/-- The challenge the example peer sends us. -/
def challengeFromBob : Challenge := ⟨"alice::laptop", "nonceB"⟩

/-- Example context of a machine resting in `negotiating` with seed
`"seedA"`. -/
def exNegCtxA : Context :=
  { exCtxMember with seed := some "seedA", peer := some bobMember, randomPool := [] }

/-- Example context of the opposite peer resting in `negotiating` with seed
`"seedB"`. -/
def exNegCtxB : Context :=
  { exCtxMember with
    user := some (User.mk "bob" (exKeys "bob"))
    seed := some "seedB"
    peer := some aliceMember
    randomPool := [] }

/-- The happy-path inbound event sequence of a member-to-member run,
ending `connected` (spec section 8, scenario 1). -/
def happyTrace : List Message :=
  [ .ready,
    .hello (some bobClaim) none,
    .challengeIdentity challengeFromBob,
    .proveIdentity ⟨"bob::laptop", "nonceA"⟩ "bobs-proof",
    .acceptIdentity,
    .update "r0" "h0" ["r0", "h0"],
    .seed ⟨"seedB", true⟩ ]

/-- A peer UPDATE with a new head, arriving after `connected`. -/
def divergingUpdate : Message := .update "r0" "h2" ["r0", "h0", "h2"]

/-- The step result rests in none of `negotiating`, `connected`,
`disconnected` (holds for every step taken from a `connecting` state). -/
def NotNCD (r : StepResult) : Prop :=
  r.state ≠ .negotiating ∧ r.state ≠ .connected ∧ r.state ≠ .disconnected


/-- The session-key invariant: no key before `negotiating` is left, a key in
`connected`, and a terminal `disconnected` only with the machine done or no
key. -/
def KeyInv (st : MachineState) : Prop :=
  (st.state = .negotiating → st.ctx.sessionKey = none) ∧
  (st.state = .connected → st.ctx.sessionKey.isSome = true) ∧
  (∀ i a, st.state = .connecting i a → st.ctx.sessionKey = none) ∧
  (st.state = .disconnected → st.done = true ∨ st.ctx.sessionKey = none)


/-- FailDone: a step that lands in `failure` reports the machine done. -/
def FailDone (r : StepResult) : Prop := r.state = .failure → r.done = true


/-! ## Supporting lemmas -/

theorem foldl_hash_lt (l : List Char) (h : Nat) (hh : h < 2 ^ 256) :
    l.foldl (fun h c => (h * 131 + c.toNat + 7) % 2 ^ 256) h < 2 ^ 256 := by
  induction l generalizing h with
  | nil => simpa using hh
  | cons c cs ih => exact ih _ (Nat.mod_lt _ (by positivity))

theorem hash256_lt (s : String) : hash256 s < 2 ^ 256 := by
  unfold hash256
  exact foldl_hash_lt _ _ (by positivity)

theorem deriveSharedKey_comm (s1 s2 : String) :
    deriveSharedKey s1 s2 = deriveSharedKey s2 s1 := by
  unfold deriveSharedKey
  rw [min_comm, max_comm]

theorem stop_of_done {c : Conn} (h : c.done = true) : Conn.stop c = c := by
  cases c with
  | mk pn st dn ms cx oi iq ne ob fl dl ev =>
    simp only at h
    subst h
    simp [Conn.stop]

theorem stop_done (c : Conn) : (Conn.stop c).done = true := rfl

theorem drawRandom_sessionKey (ctx : Context) :
    (ctx.drawRandom).2.sessionKey = ctx.sessionKey := by
  unfold Context.drawRandom
  split <;> rfl

theorem maybeSync_props (inv : InvPhase) (auth : AuthProgress) (ctx : Context)
    (out : List Message) (ev : List LEvent) :
    (maybeSync inv auth ctx out ev).ctx.sessionKey = ctx.sessionKey ∧
    NotNCD (maybeSync inv auth ctx out ev) := by
  unfold maybeSync NotNCD failWithOut
  split
  · split <;> simp
  · simp

theorem helloChallenge_props (inv : InvPhase) (auth : AuthProgress) (ctx : Context)
    (claim : Option IdentityClaim) (out : List Message) :
    (helloChallenge inv auth ctx claim out).ctx.sessionKey = ctx.sessionKey ∧
    NotNCD (helloChallenge inv auth ctx claim out) := by
  unfold helloChallenge
  cases claim with
  | none => simp [failWithOut, NotNCD]
  | some cl =>
    rcases hdr : ctx.drawRandom with ⟨nonce, ctx2⟩
    have h2 : ctx2.sessionKey = ctx.sessionKey := by
      have := drawRandom_sessionKey ctx
      rw [hdr] at this
      exact this
    simp only [hdr]
    refine ⟨?_, (maybeSync_props _ _ _ _ _).2⟩
    rw [(maybeSync_props _ _ _ _ _).1]
    simpa using h2

theorem handleInvitationPart_error {ctx : Context} {p : ProofOfInvitation}
    {r : StepResult} (h : handleInvitationPart ctx p = .error r) :
    r.ctx.sessionKey = ctx.sessionKey ∧ r.state = .failure := by
  unfold handleInvitationPart at h
  split at h
  · cases h
    simp [failWithOut]
  · split at h
    · cases h
      simp [failWithOut]
    · split at h
      · cases h
      · cases h
        simp [failWithOut]

theorem handleInvitationPart_ok {ctx : Context} {p : ProofOfInvitation}
    {ctx' : Context} {out : List Message}
    (h : handleInvitationPart ctx p = .ok (ctx', out)) :
    ctx'.sessionKey = ctx.sessionKey := by
  unfold handleInvitationPart at h
  split at h
  · cases h
  · split at h
    · cases h
    · split at h
      · cases h
        rfl
      · cases h

theorem helloRest_props (inv : InvPhase) (auth : AuthProgress) (ctx : Context)
    (claim : Option IdentityClaim) (proof : Option ProofOfInvitation) :
    (helloRest inv auth ctx claim proof).ctx.sessionKey = ctx.sessionKey ∧
    NotNCD (helloRest inv auth ctx claim proof) := by
  unfold helloRest
  split
  · simp [failWithOut, NotNCD]
  · split
    · split
      · case _ r heq =>
        have h := handleInvitationPart_error heq
        refine ⟨h.1, ?_⟩
        simp [NotNCD, h.2]
      · case _ ctx2 out heq =>
        have h := handleInvitationPart_ok heq
        have hc := helloChallenge_props inv auth ctx2 claim out
        exact ⟨by rw [hc.1, h], hc.2⟩
    · exact helloChallenge_props inv auth ctx claim []

theorem handleHello_props (inv : InvPhase) (auth : AuthProgress) (ctx : Context)
    (claim : Option IdentityClaim) (proof : Option ProofOfInvitation) :
    (handleHello inv auth ctx claim proof).ctx.sessionKey = ctx.sessionKey ∧
    NotNCD (handleHello inv auth ctx claim proof) := by
  unfold handleHello
  exact helloRest_props inv auth _ claim proof



theorem handleChallenge_props (inv : InvPhase) (auth : AuthProgress) (ctx : Context)
    (ch : Challenge) :
    (handleChallenge inv auth ctx ch).ctx.sessionKey = ctx.sessionKey ∧
    NotNCD (handleChallenge inv auth ctx ch) := by
  unfold handleChallenge
  split
  · simp [failWithOut, NotNCD]
  · exact maybeSync_props _ _ _ _ _

theorem handleProve_props (inv : InvPhase) (auth : AuthProgress) (ctx : Context)
    (ch : Challenge) (pf : String) :
    (handleProve inv auth ctx ch pf).ctx.sessionKey = ctx.sessionKey ∧
    NotNCD (handleProve inv auth ctx ch pf) := by
  unfold handleProve
  split
  · simp [failWithOut, NotNCD]
  · split
    · split
      · refine ⟨?_, (maybeSync_props _ _ _ _ _).2⟩
        rw [(maybeSync_props _ _ _ _ _).1]
      · simp [failWithOut, NotNCD]
    · simp [failWithOut, NotNCD]

theorem handleAcceptIdentity_props (inv : InvPhase) (auth : AuthProgress) (ctx : Context) :
    (handleAcceptIdentity inv auth ctx).ctx.sessionKey = ctx.sessionKey ∧
    NotNCD (handleAcceptIdentity inv auth ctx) := by
  unfold handleAcceptIdentity
  exact maybeSync_props _ _ _ _ _

theorem handleAcceptInvitation_props (inv : InvPhase) (auth : AuthProgress) (ctx : Context)
    (chain : Team) :
    (handleAcceptInvitation inv auth ctx chain).ctx.sessionKey = ctx.sessionKey ∧
    NotNCD (handleAcceptInvitation inv auth ctx chain) := by
  unfold handleAcceptInvitation
  split
  · split
    · split
      · refine ⟨?_, (maybeSync_props _ _ _ _ _).2⟩
        rw [(maybeSync_props _ _ _ _ _).1]
      · simp [failWithOut, NotNCD]
    · simp [failWithOut, NotNCD]
  · simp [stayR, NotNCD]

theorem syncCheck_props (ctx : Context) (th : Option Hash) (out : List Message)
    (ev : List LEvent) :
    (syncCheck ctx th out ev).ctx.sessionKey = ctx.sessionKey ∧
    ((syncCheck ctx th out ev).state = .negotiating → ctx.sessionKey = none) ∧
    ((syncCheck ctx th out ev).state = .connected → ctx.sessionKey.isSome = true) ∧
    (syncCheck ctx th out ev).state ≠ .disconnected ∧
    (∀ i a, (syncCheck ctx th out ev).state ≠ .connecting i a) := by
  unfold syncCheck
  split
  · rename_i t peer heqt heqp
    cases hrm : t.has peer.userName with
    | false => simp [failWithOut]
    | true =>
      cases hhd : th == some t.head with
      | false => simp
      | true =>
        cases hsk : ctx.sessionKey with
        | some k => simp [hsk]
        | none =>
          cases hu : ctx.user with
          | none => simp [failWithOut, hsk]
          | some u =>
            rcases hdr : ctx.drawRandom with ⟨sv, ctx2⟩
            have h2 : ctx2.sessionKey = ctx.sessionKey := by
              have := drawRandom_sessionKey ctx
              rw [hdr] at this
              exact this
            simp [hdr, h2, hsk]
  · simp [failWithOut]



theorem handleSyncUpdate_props (ctx : Context) (head : Hash) (hashes : List Hash) :
    (handleSyncUpdate ctx head hashes).ctx.sessionKey = ctx.sessionKey ∧
    ((handleSyncUpdate ctx head hashes).state = .negotiating → ctx.sessionKey = none) ∧
    ((handleSyncUpdate ctx head hashes).state = .connected → ctx.sessionKey.isSome = true) ∧
    (handleSyncUpdate ctx head hashes).state ≠ .disconnected ∧
    (∀ i a, (handleSyncUpdate ctx head hashes).state ≠ .connecting i a) := by
  unfold handleSyncUpdate
  split
  · simp [failWithOut]
  · rename_i t heqt
    simpa using syncCheck_props { ctx with theirHead := some head } (some head)
      (if (t.getMissingLinksFn head hashes).isEmpty then []
       else [.missingLinks t.head (t.getMissingLinksFn head hashes)]) []

theorem handleSyncMissingLinks_props (ctx : Context) (head : Hash) (links : List Hash) :
    (handleSyncMissingLinks ctx head links).ctx.sessionKey = ctx.sessionKey ∧
    ((handleSyncMissingLinks ctx head links).state = .negotiating → ctx.sessionKey = none) ∧
    ((handleSyncMissingLinks ctx head links).state = .connected → ctx.sessionKey.isSome = true) ∧
    (handleSyncMissingLinks ctx head links).state ≠ .disconnected ∧
    (∀ i a, (handleSyncMissingLinks ctx head links).state ≠ .connecting i a) := by
  unfold handleSyncMissingLinks
  split
  · simp [failWithOut]
  · rename_i t heqt
    simpa using syncCheck_props { ctx with team := some (t.receiveMissingLinks head links) }
      (some head) [sendUpdateMsg (t.receiveMissingLinks head links)] []

theorem handleSyncLocal_props (ctx : Context) (head : Hash) :
    (handleSyncLocal ctx head).ctx.sessionKey = ctx.sessionKey ∧
    ((handleSyncLocal ctx head).state = .negotiating → ctx.sessionKey = none) ∧
    ((handleSyncLocal ctx head).state = .connected → ctx.sessionKey.isSome = true) ∧
    (handleSyncLocal ctx head).state ≠ .disconnected ∧
    (∀ i a, (handleSyncLocal ctx head).state ≠ .connecting i a) := by
  unfold handleSyncLocal
  split
  · simp [failWithOut]
  · rename_i t heqt
    simpa using syncCheck_props { ctx with team := some { t with head := head } }
      ctx.theirHead [sendUpdateMsg { t with head := head }] []

theorem handleConnectedUpdate_props (ctx : Context) (head : Hash) :
    (handleConnectedUpdate ctx head).ctx.sessionKey = ctx.sessionKey ∧
    ((handleConnectedUpdate ctx head).state = .negotiating → ctx.sessionKey = none) ∧
    ((handleConnectedUpdate ctx head).state = .connected → ctx.sessionKey.isSome = true) ∧
    (handleConnectedUpdate ctx head).state ≠ .disconnected ∧
    (∀ i a, (handleConnectedUpdate ctx head).state ≠ .connecting i a) := by
  unfold handleConnectedUpdate
  split
  · simp [failWithOut]
  · rename_i t heqt
    simpa using syncCheck_props { ctx with theirHead := some head } (some head)
      [sendUpdateMsg t] []

theorem handleConnectedLocal_props (ctx : Context) (head : Hash) :
    (handleConnectedLocal ctx head).ctx.sessionKey = ctx.sessionKey ∧
    ((handleConnectedLocal ctx head).state = .negotiating → ctx.sessionKey = none) ∧
    ((handleConnectedLocal ctx head).state = .connected → ctx.sessionKey.isSome = true) ∧
    (handleConnectedLocal ctx head).state ≠ .disconnected ∧
    (∀ i a, (handleConnectedLocal ctx head).state ≠ .connecting i a) := by
  unfold handleConnectedLocal
  split
  · simp [failWithOut]
  · rename_i t heqt
    simpa using syncCheck_props { ctx with team := some { t with head := head } }
      ctx.theirHead [sendUpdateMsg { t with head := head }] []

theorem handleSeed_props (ctx : Context) (c : Cipher) :
    ((handleSeed ctx c).state = .connected ∨ (handleSeed ctx c).state = .failure) ∧
    ((handleSeed ctx c).state = .connected → (handleSeed ctx c).ctx.sessionKey.isSome = true) := by
  unfold handleSeed
  split
  · split <;> simp [failWithOut]
  · simp [failWithOut]

theorem handleEncrypted_props (ctx : Context) (p : String) :
    ((handleEncrypted ctx p).state = .connected ∨ (handleEncrypted ctx p).state = .failure) ∧
    (handleEncrypted ctx p).ctx.sessionKey = ctx.sessionKey := by
  unfold handleEncrypted
  split <;> simp [failWithOut]



theorem keyInv_connecting {ctx : Context} (inv : InvPhase) (auth : AuthProgress)
    (hkey : ctx.sessionKey = none) (d : Bool) :
    KeyInv ⟨.connecting inv auth, ctx, d⟩ :=
  ⟨by simp, by simp, fun _ _ _ => hkey, by simp⟩

theorem keyInv_negotiating {ctx : Context} (hkey : ctx.sessionKey = none) (d : Bool) :
    KeyInv ⟨.negotiating, ctx, d⟩ :=
  ⟨fun _ => hkey, by simp, by simp, by simp⟩

theorem keyInv_connected {ctx : Context} (hkey : ctx.sessionKey.isSome = true) (d : Bool) :
    KeyInv ⟨.connected, ctx, d⟩ :=
  ⟨by simp, fun _ => hkey, by simp, by simp⟩

theorem keyInv_synchronizing (ctx : Context) (d : Bool) :
    KeyInv ⟨.synchronizing, ctx, d⟩ :=
  ⟨by simp, by simp, by simp, by simp⟩

theorem keyInv_failureState (ctx : Context) (d : Bool) :
    KeyInv ⟨.failure, ctx, d⟩ :=
  ⟨by simp, by simp, by simp, by simp⟩

theorem keyInv_disconnected {ctx : Context} (hkey : ctx.sessionKey = none) (d : Bool) :
    KeyInv ⟨.disconnected, ctx, d⟩ :=
  ⟨by simp, by simp, by simp, fun _ => Or.inr hkey⟩

theorem keyInv_disconnected_done (ctx : Context) :
    KeyInv ⟨.disconnected, ctx, true⟩ :=
  ⟨by simp, by simp, by simp, fun _ => Or.inl rfl⟩

theorem keyInv_of_failure {r : StepResult} (hst : r.state = .failure) (d : Bool) :
    KeyInv ⟨r.state, r.ctx, d⟩ := by
  rw [hst]
  exact keyInv_failureState _ _

theorem keyInv_of_notNCD {r : StepResult} {ctx : Context}
    (hkeyEq : r.ctx.sessionKey = ctx.sessionKey) (hkey : ctx.sessionKey = none)
    (hn : NotNCD r) (d : Bool) : KeyInv ⟨r.state, r.ctx, d⟩ := by
  refine ⟨fun hs => absurd hs hn.1, fun hs => absurd hs hn.2.1,
    fun i a hs => ?_, fun hs => absurd hs hn.2.2⟩
  rw [hkeyEq, hkey]

theorem keyInv_of_syncBundle {r : StepResult} {ctx : Context}
    (hb : r.ctx.sessionKey = ctx.sessionKey ∧
      (r.state = .negotiating → ctx.sessionKey = none) ∧
      (r.state = .connected → ctx.sessionKey.isSome = true) ∧
      r.state ≠ .disconnected ∧ (∀ i a, r.state ≠ .connecting i a)) (d : Bool) :
    KeyInv ⟨r.state, r.ctx, d⟩ := by
  refine ⟨fun hs => ?_, fun hs => ?_, fun i a hs => absurd hs (hb.2.2.2.2 i a),
    fun hs => absurd hs hb.2.2.2.1⟩
  · rw [hb.1]
    exact hb.2.1 hs
  · rw [hb.1]
    exact hb.2.2.1 hs

theorem keyInv_of_seedBundle {r : StepResult}
    (hb : (r.state = .connected ∨ r.state = .failure) ∧
      (r.state = .connected → r.ctx.sessionKey.isSome = true)) (d : Bool) :
    KeyInv ⟨r.state, r.ctx, d⟩ := by
  rcases hb.1 with h1 | h1
  · rw [h1]
    exact keyInv_connected (hb.2 h1) d
  · rw [h1]
    exact keyInv_failureState _ _

theorem machineStep_keyInv (st : MachineState) (m : Message) (h : KeyInv st) :
    KeyInv (machineStep st m) := by
  obtain ⟨s, ctx, d⟩ := st
  by_cases hd : d = true
  · subst hd
    exact h
  · have hd' : d = false := by simpa using hd
    subst hd'
    show KeyInv ⟨(mstep s ctx m).state, (mstep s ctx m).ctx, false || (mstep s ctx m).done⟩
    cases s with
    | disconnected =>
      have hkey : ctx.sessionKey = none := (h.2.2.2 rfl).resolve_left (by simp)
      cases m with
      | ready => exact keyInv_connecting _ _ hkey _
      | error p => exact keyInv_of_failure rfl _
      | timeout => exact keyInv_of_failure rfl _
      | hello c p => exact keyInv_disconnected hkey _
      | acceptInvitation c => exact keyInv_disconnected hkey _
      | challengeIdentity c => exact keyInv_disconnected hkey _
      | proveIdentity c p => exact keyInv_disconnected hkey _
      | acceptIdentity => exact keyInv_disconnected hkey _
      | update r hd hs => exact keyInv_disconnected hkey _
      | missingLinks hd l => exact keyInv_disconnected hkey _
      | localUpdate hd => exact keyInv_disconnected hkey _
      | seed c => exact keyInv_disconnected hkey _
      | encryptedMessage p => exact keyInv_disconnected hkey _
      | disconnect => exact keyInv_disconnected hkey _
      | reconnect => exact keyInv_disconnected hkey _
    | connecting inv auth =>
      have hkey : ctx.sessionKey = none := h.2.2.1 inv auth rfl
      cases m with
      | error p => exact keyInv_of_failure rfl _
      | timeout => exact keyInv_of_failure rfl _
      | hello c p =>
        exact keyInv_of_notNCD (handleHello_props inv auth ctx c p).1 hkey
          (handleHello_props inv auth ctx c p).2 _
      | challengeIdentity c =>
        exact keyInv_of_notNCD (handleChallenge_props inv auth ctx c).1 hkey
          (handleChallenge_props inv auth ctx c).2 _
      | proveIdentity c p =>
        exact keyInv_of_notNCD (handleProve_props inv auth ctx c p).1 hkey
          (handleProve_props inv auth ctx c p).2 _
      | acceptIdentity =>
        exact keyInv_of_notNCD (handleAcceptIdentity_props inv auth ctx).1 hkey
          (handleAcceptIdentity_props inv auth ctx).2 _
      | acceptInvitation c =>
        exact keyInv_of_notNCD (handleAcceptInvitation_props inv auth ctx c).1 hkey
          (handleAcceptInvitation_props inv auth ctx c).2 _
      | ready => exact keyInv_connecting _ _ hkey _
      | update r hd hs => exact keyInv_connecting _ _ hkey _
      | missingLinks hd l => exact keyInv_connecting _ _ hkey _
      | localUpdate hd => exact keyInv_connecting _ _ hkey _
      | seed c => exact keyInv_connecting _ _ hkey _
      | encryptedMessage p => exact keyInv_connecting _ _ hkey _
      | disconnect => exact keyInv_connecting _ _ hkey _
      | reconnect => exact keyInv_connecting _ _ hkey _
    | synchronizing =>
      cases m with
      | error p => exact keyInv_of_failure rfl _
      | timeout => exact keyInv_of_failure rfl _
      | update r hd hs => exact keyInv_of_syncBundle (handleSyncUpdate_props ctx hd hs) _
      | missingLinks hd l => exact keyInv_of_syncBundle (handleSyncMissingLinks_props ctx hd l) _
      | localUpdate hd => exact keyInv_of_syncBundle (handleSyncLocal_props ctx hd) _
      | ready => exact keyInv_synchronizing _ _
      | hello c p => exact keyInv_synchronizing _ _
      | acceptInvitation c => exact keyInv_synchronizing _ _
      | challengeIdentity c => exact keyInv_synchronizing _ _
      | proveIdentity c p => exact keyInv_synchronizing _ _
      | acceptIdentity => exact keyInv_synchronizing _ _
      | seed c => exact keyInv_synchronizing _ _
      | encryptedMessage p => exact keyInv_synchronizing _ _
      | disconnect => exact keyInv_synchronizing _ _
      | reconnect => exact keyInv_synchronizing _ _
    | negotiating =>
      have hkey : ctx.sessionKey = none := h.1 rfl
      cases m with
      | error p => exact keyInv_of_failure rfl _
      | timeout => exact keyInv_of_failure rfl _
      | seed c => exact keyInv_of_seedBundle (handleSeed_props ctx c) _
      | ready => exact keyInv_negotiating hkey _
      | hello c p => exact keyInv_negotiating hkey _
      | acceptInvitation c => exact keyInv_negotiating hkey _
      | challengeIdentity c => exact keyInv_negotiating hkey _
      | proveIdentity c p => exact keyInv_negotiating hkey _
      | acceptIdentity => exact keyInv_negotiating hkey _
      | update r hd hs => exact keyInv_negotiating hkey _
      | missingLinks hd l => exact keyInv_negotiating hkey _
      | localUpdate hd => exact keyInv_negotiating hkey _
      | encryptedMessage p => exact keyInv_negotiating hkey _
      | disconnect => exact keyInv_negotiating hkey _
      | reconnect => exact keyInv_negotiating hkey _
    | connected =>
      have hkey : ctx.sessionKey.isSome = true := h.2.1 rfl
      cases m with
      | error p => exact keyInv_of_failure rfl _
      | timeout => exact keyInv_of_failure rfl _
      | encryptedMessage p =>
        refine keyInv_of_seedBundle ⟨(handleEncrypted_props ctx p).1, fun _ => ?_⟩ _
        rw [(handleEncrypted_props ctx p).2]
        exact hkey
      | update r hd hs => exact keyInv_of_syncBundle (handleConnectedUpdate_props ctx hd) _
      | localUpdate hd => exact keyInv_of_syncBundle (handleConnectedLocal_props ctx hd) _
      | disconnect => exact keyInv_disconnected_done _
      | ready => exact keyInv_connected hkey _
      | hello c p => exact keyInv_connected hkey _
      | acceptInvitation c => exact keyInv_connected hkey _
      | challengeIdentity c => exact keyInv_connected hkey _
      | proveIdentity c p => exact keyInv_connected hkey _
      | acceptIdentity => exact keyInv_connected hkey _
      | missingLinks hd l => exact keyInv_connected hkey _
      | seed c => exact keyInv_connected hkey _
      | reconnect => exact keyInv_connected hkey _
    | failure =>
      cases m with
      | ready => exact keyInv_failureState _ _
      | hello c p => exact keyInv_failureState _ _
      | acceptInvitation c => exact keyInv_failureState _ _
      | challengeIdentity c => exact keyInv_failureState _ _
      | proveIdentity c p => exact keyInv_failureState _ _
      | acceptIdentity => exact keyInv_failureState _ _
      | update r hd hs => exact keyInv_failureState _ _
      | missingLinks hd l => exact keyInv_failureState _ _
      | localUpdate hd => exact keyInv_failureState _ _
      | seed c => exact keyInv_failureState _ _
      | encryptedMessage p => exact keyInv_failureState _ _
      | disconnect => exact keyInv_failureState _ _
      | error p => exact keyInv_failureState _ _
      | reconnect => exact keyInv_failureState _ _
      | timeout => exact keyInv_failureState _ _



theorem machineStep_keyPres (st : MachineState) (m : Message) (k : Nat)
    (h : KeyInv st) (hk : st.ctx.sessionKey = some k) :
    (machineStep st m).ctx.sessionKey = some k := by
  obtain ⟨s, ctx, d⟩ := st
  by_cases hd : d = true
  · subst hd
    exact hk
  · have hd' : d = false := by simpa using hd
    subst hd'
    show (mstep s ctx m).ctx.sessionKey = some k
    cases s with
    | negotiating =>
      rw [h.1 rfl] at hk
      cases hk
    | disconnected => cases m <;> exact hk
    | failure => cases m <;> exact hk
    | connecting inv auth =>
      cases m with
      | hello c p => exact ((handleHello_props inv auth ctx c p).1).trans hk
      | challengeIdentity c => exact ((handleChallenge_props inv auth ctx c).1).trans hk
      | proveIdentity c p => exact ((handleProve_props inv auth ctx c p).1).trans hk
      | acceptIdentity => exact ((handleAcceptIdentity_props inv auth ctx).1).trans hk
      | acceptInvitation c => exact ((handleAcceptInvitation_props inv auth ctx c).1).trans hk
      | ready => exact hk
      | update r hd hs => exact hk
      | missingLinks hd l => exact hk
      | localUpdate hd => exact hk
      | seed c => exact hk
      | encryptedMessage p => exact hk
      | disconnect => exact hk
      | reconnect => exact hk
      | error p => exact hk
      | timeout => exact hk
    | synchronizing =>
      cases m with
      | update r hd hs => exact ((handleSyncUpdate_props ctx hd hs).1).trans hk
      | missingLinks hd l => exact ((handleSyncMissingLinks_props ctx hd l).1).trans hk
      | localUpdate hd => exact ((handleSyncLocal_props ctx hd).1).trans hk
      | ready => exact hk
      | hello c p => exact hk
      | acceptInvitation c => exact hk
      | challengeIdentity c => exact hk
      | proveIdentity c p => exact hk
      | acceptIdentity => exact hk
      | seed c => exact hk
      | encryptedMessage p => exact hk
      | disconnect => exact hk
      | reconnect => exact hk
      | error p => exact hk
      | timeout => exact hk
    | connected =>
      cases m with
      | encryptedMessage p => exact ((handleEncrypted_props ctx p).2).trans hk
      | update r hd hs => exact ((handleConnectedUpdate_props ctx hd).1).trans hk
      | localUpdate hd => exact ((handleConnectedLocal_props ctx hd).1).trans hk
      | ready => exact hk
      | hello c p => exact hk
      | acceptInvitation c => exact hk
      | challengeIdentity c => exact hk
      | proveIdentity c p => exact hk
      | acceptIdentity => exact hk
      | missingLinks hd l => exact hk
      | seed c => exact hk
      | disconnect => exact hk
      | reconnect => exact hk
      | error p => exact hk
      | timeout => exact hk

theorem machineRun_keyInv (ms : List Message) (st : MachineState) (h : KeyInv st) :
    KeyInv (machineRun st ms) := by
  induction ms generalizing st with
  | nil => exact h
  | cons m rest ih => exact ih _ (machineStep_keyInv st m h)

theorem machineRun_keyPres (ms : List Message) (st : MachineState) (k : Nat)
    (h : KeyInv st) (hk : st.ctx.sessionKey = some k) :
    (machineRun st ms).ctx.sessionKey = some k := by
  induction ms generalizing st with
  | nil => exact hk
  | cons m rest ih => exact ih _ (machineStep_keyInv st m h) (machineStep_keyPres st m k h hk)

theorem forwardOne_done {a : Conn} (h : a.done = true) (r : NumberedMessage) :
    forwardOne a r = a := by
  unfold forwardOne
  simp [h]

theorem foldl_forwardOne_done (l : List NumberedMessage) (a : Conn) (h : a.done = true) :
    l.foldl forwardOne a = a := by
  induction l with
  | nil => rfl
  | cons x xs ih =>
    rw [List.foldl_cons, forwardOne_done h, ih]

theorem deliver_done {c : Conn} (hc : c.done = true) (m : NumberedMessage) :
    c.deliver m =
      { c with incomingMessageQueue := (orderedDelivery c.incomingMessageQueue c.nextExpected m).1,
               nextExpected := (orderedDelivery c.incomingMessageQueue c.nextExpected m).2.1 } := by
  unfold Conn.deliver
  exact foldl_forwardOne_done _ _ hc

theorem failDone_maybeSync (inv : InvPhase) (auth : AuthProgress) (ctx : Context)
    (out : List Message) (ev : List LEvent) : FailDone (maybeSync inv auth ctx out ev) := by
  unfold FailDone maybeSync
  split
  · split <;> simp [failWithOut]
  · simp

theorem failDone_helloChallenge (inv : InvPhase) (auth : AuthProgress) (ctx : Context)
    (claim : Option IdentityClaim) (out : List Message) :
    FailDone (helloChallenge inv auth ctx claim out) := by
  unfold helloChallenge
  cases claim with
  | none => simp [FailDone, failWithOut]
  | some cl =>
    rcases hdr : ctx.drawRandom with ⟨nonce, ctx2⟩
    simp only [hdr]
    exact failDone_maybeSync _ _ _ _ _

theorem handleInvitationPart_error_done {ctx : Context} {p : ProofOfInvitation}
    {r : StepResult} (h : handleInvitationPart ctx p = .error r) : r.done = true := by
  unfold handleInvitationPart at h
  split at h
  · cases h
    rfl
  · split at h
    · cases h
      rfl
    · split at h
      · cases h
      · cases h
        rfl

theorem failDone_helloRest (inv : InvPhase) (auth : AuthProgress) (ctx : Context)
    (claim : Option IdentityClaim) (proof : Option ProofOfInvitation) :
    FailDone (helloRest inv auth ctx claim proof) := by
  unfold helloRest
  split
  · simp [FailDone, failWithOut]
  · split
    · split
      · case _ r heq =>
        intro _
        exact handleInvitationPart_error_done heq
      · exact failDone_helloChallenge _ _ _ _ _
    · exact failDone_helloChallenge _ _ _ _ _

theorem failDone_syncCheck (ctx : Context) (th : Option Hash) (out : List Message)
    (ev : List LEvent) : FailDone (syncCheck ctx th out ev) := by
  unfold FailDone syncCheck
  split
  · split
    · simp [failWithOut]
    · split
      · split
        · split
          · simp [failWithOut]
          · rcases hdr : ctx.drawRandom with ⟨sv, ctx2⟩
            simp [hdr]
        · simp
      · simp
  · simp [failWithOut]

theorem mstep_failure_done (s : MState) (ctx : Context) (m : Message)
    (hs : s ≠ .failure) :
    (mstep s ctx m).state = .failure → (mstep s ctx m).done = true := by
  cases s with
  | failure => exact absurd rfl hs
  | disconnected =>
    cases m with
    | error p => intro _; rfl
    | timeout => intro _; rfl
    | ready => simp [mstep, enterConnecting]
    | hello c p => simp [mstep, stayR]
    | acceptInvitation c => simp [mstep, stayR]
    | challengeIdentity c => simp [mstep, stayR]
    | proveIdentity c p => simp [mstep, stayR]
    | acceptIdentity => simp [mstep, stayR]
    | update r h l => simp [mstep, stayR]
    | missingLinks h l => simp [mstep, stayR]
    | localUpdate h => simp [mstep, stayR]
    | seed c => simp [mstep, stayR]
    | encryptedMessage p => simp [mstep, stayR]
    | disconnect => simp [mstep, stayR]
    | reconnect => simp [mstep, stayR]
  | connecting inv auth =>
    cases m with
    | error p => intro _; rfl
    | timeout => intro _; rfl
    | hello c p => exact failDone_helloRest inv auth _ c p
    | challengeIdentity c =>
      show FailDone (handleChallenge inv auth ctx c)
      unfold handleChallenge
      split
      · simp [FailDone, failWithOut]
      · exact failDone_maybeSync _ _ _ _ _
    | proveIdentity c p =>
      show FailDone (handleProve inv auth ctx c p)
      unfold handleProve
      split
      · simp [FailDone, failWithOut]
      · split
        · split
          · exact failDone_maybeSync _ _ _ _ _
          · simp [FailDone, failWithOut]
        · simp [FailDone, failWithOut]
    | acceptIdentity => exact failDone_maybeSync _ _ _ _ _
    | acceptInvitation c =>
      show FailDone (handleAcceptInvitation inv auth ctx c)
      unfold handleAcceptInvitation
      split
      · split
        · split
          · exact failDone_maybeSync _ _ _ _ _
          · simp [FailDone, failWithOut]
        · simp [FailDone, failWithOut]
      · simp [FailDone, stayR]
    | ready => simp [mstep, stayR]
    | update r h l => simp [mstep, stayR]
    | missingLinks h l => simp [mstep, stayR]
    | localUpdate h => simp [mstep, stayR]
    | seed c => simp [mstep, stayR]
    | encryptedMessage p => simp [mstep, stayR]
    | disconnect => simp [mstep, stayR]
    | reconnect => simp [mstep, stayR]
  | synchronizing =>
    cases m with
    | error p => intro _; rfl
    | timeout => intro _; rfl
    | update r h l =>
      show FailDone (handleSyncUpdate ctx h l)
      unfold handleSyncUpdate
      split
      · simp [FailDone, failWithOut]
      · exact failDone_syncCheck _ _ _ _
    | missingLinks h l =>
      show FailDone (handleSyncMissingLinks ctx h l)
      unfold handleSyncMissingLinks
      split
      · simp [FailDone, failWithOut]
      · exact failDone_syncCheck _ _ _ _
    | localUpdate h =>
      show FailDone (handleSyncLocal ctx h)
      unfold handleSyncLocal
      split
      · simp [FailDone, failWithOut]
      · exact failDone_syncCheck _ _ _ _
    | ready => simp [mstep, stayR]
    | hello c p => simp [mstep, stayR]
    | acceptInvitation c => simp [mstep, stayR]
    | challengeIdentity c => simp [mstep, stayR]
    | proveIdentity c p => simp [mstep, stayR]
    | acceptIdentity => simp [mstep, stayR]
    | seed c => simp [mstep, stayR]
    | encryptedMessage p => simp [mstep, stayR]
    | disconnect => simp [mstep, stayR]
    | reconnect => simp [mstep, stayR]
  | negotiating =>
    cases m with
    | error p => intro _; rfl
    | timeout => intro _; rfl
    | seed c =>
      show FailDone (handleSeed ctx c)
      unfold handleSeed
      split
      · split
        · simp [FailDone]
        · simp [FailDone, failWithOut]
      · simp [FailDone, failWithOut]
    | ready => simp [mstep, stayR]
    | hello c p => simp [mstep, stayR]
    | acceptInvitation c => simp [mstep, stayR]
    | challengeIdentity c => simp [mstep, stayR]
    | proveIdentity c p => simp [mstep, stayR]
    | acceptIdentity => simp [mstep, stayR]
    | update r h l => simp [mstep, stayR]
    | missingLinks h l => simp [mstep, stayR]
    | localUpdate h => simp [mstep, stayR]
    | encryptedMessage p => simp [mstep, stayR]
    | disconnect => simp [mstep, stayR]
    | reconnect => simp [mstep, stayR]
  | connected =>
    cases m with
    | error p => intro _; rfl
    | timeout => intro _; rfl
    | encryptedMessage p =>
      show FailDone (handleEncrypted ctx p)
      unfold handleEncrypted
      split <;> simp [FailDone, failWithOut]
    | update r h l =>
      show FailDone (handleConnectedUpdate ctx h)
      unfold handleConnectedUpdate
      split
      · simp [FailDone, failWithOut]
      · exact failDone_syncCheck _ _ _ _
    | localUpdate h =>
      show FailDone (handleConnectedLocal ctx h)
      unfold handleConnectedLocal
      split
      · simp [FailDone, failWithOut]
      · exact failDone_syncCheck _ _ _ _
    | disconnect => simp [mstep]
    | ready => simp [mstep, stayR]
    | hello c p => simp [mstep, stayR]
    | acceptInvitation c => simp [mstep, stayR]
    | challengeIdentity c => simp [mstep, stayR]
    | proveIdentity c p => simp [mstep, stayR]
    | acceptIdentity => simp [mstep, stayR]
    | missingLinks h l => simp [mstep, stayR]
    | seed c => simp [mstep, stayR]
    | reconnect => simp [mstep, stayR]



theorem sendMessage_started (c : Conn) (m : Message) :
    (c.sendMessage m).started = c.started := rfl

theorem foldl_sendMessage_started (l : List Message) (a : Conn) :
    (l.foldl Conn.sendMessage a).started = a.started := by
  induction l generalizing a with
  | nil => rfl
  | cons x xs ih => rw [List.foldl_cons, ih, sendMessage_started]

theorem machineSend_started (c : Conn) (m : Message) :
    (c.machineSend m).started = c.started := by
  unfold Conn.machineSend
  rw [foldl_sendMessage_started]

theorem forwardOne_started (a : Conn) (r : NumberedMessage) :
    (forwardOne a r).started = a.started := by
  unfold forwardOne
  split
  · show (a.machineSend r.msg).started = a.started
    exact machineSend_started a r.msg
  · rfl

theorem foldl_forwardOne_started (l : List NumberedMessage) (a : Conn) :
    (l.foldl forwardOne a).started = a.started := by
  induction l generalizing a with
  | nil => rfl
  | cons x xs ih => rw [List.foldl_cons, ih, forwardOne_started]

theorem deliver_started (c : Conn) (m : NumberedMessage) :
    (c.deliver m).started = c.started := by
  unfold Conn.deliver
  exact foldl_forwardOne_started _ _

theorem foldl_deliver_started (l : List NumberedMessage) (a : Conn) :
    (l.foldl Conn.deliver a).started = a.started := by
  induction l generalizing a with
  | nil => rfl
  | cons x xs ih => rw [List.foldl_cons, ih, deliver_started]

theorem failurePost_failWithOut (ctx : Context) (out : List Message) (msg : String)
    (h : out.countP (fun m => isErrorMsg m) = 0) : FailurePost (failWithOut ctx out msg) := by
  unfold FailurePost failWithOut
  refine ⟨rfl, rfl, ?_, by simp, rfl⟩
  rw [List.countP_append, h]
  simp [List.countP_cons, List.countP_nil, isErrorMsg]

theorem c8_timeout (s : MState) (ctx : Context) (hs : s ≠ .failure) :
    FailurePost (mstep s ctx .timeout) := by
  cases s with
  | failure => exact absurd rfl hs
  | disconnected => exact failurePost_failWithOut _ [] _ rfl
  | connecting inv auth => exact failurePost_failWithOut _ [] _ rfl
  | synchronizing => exact failurePost_failWithOut _ [] _ rfl
  | negotiating => exact failurePost_failWithOut _ [] _ rfl
  | connected => exact failurePost_failWithOut _ [] _ rfl

theorem c8_rejectIdentityProof (inv : InvPhase) (auth : AuthProgress) (ctx : Context)
    (ch : Challenge) (pf : String) (t : Team) (ht : ctx.team = some t)
    (hv : t.verifyIdentityProofFn ch pf = false) :
    FailurePost (mstep (.connecting inv auth) ctx (.proveIdentity ch pf)) := by
  show FailurePost (handleProve inv auth ctx ch pf)
  unfold handleProve
  rw [ht]
  simp only [hv, Bool.false_eq_true, if_false]
  exact failurePost_failWithOut _ [] _ rfl

theorem c8_peerWasRemoved (ctx : Context) (rt : Hash) (head : Hash) (hashes : List Hash)
    (t : Team) (p : Member) (ht : ctx.team = some t) (hp : ctx.peer = some p)
    (hrm : t.has p.userName = false) :
    FailurePost (mstep .synchronizing ctx (.update rt head hashes)) := by
  show FailurePost (handleSyncUpdate ctx head hashes)
  unfold handleSyncUpdate
  rw [ht]
  unfold syncCheck
  simp only [ht, hp]
  rw [hrm]
  simp only [Bool.not_false, if_true]
  refine failurePost_failWithOut _ _ _ ?_
  split <;> simp [isErrorMsg]

theorem c8_rejectTeam (auth : AuthProgress) (ctx : Context) (chain : Team)
    (iv : Invitee) (sv : String) (hiv : ctx.invitee = some iv)
    (hsv : ctx.invitationSeed = some sv)
    (hrej : chain.hasInvitationFn (generateProof sv iv) = false) :
    FailurePost (mstep (.connecting .awaitingTeam auth) ctx (.acceptInvitation chain)) := by
  show FailurePost (handleAcceptInvitation .awaitingTeam auth ctx chain)
  unfold handleAcceptInvitation
  have hmp : myProofOfInvitation ctx = some (generateProof sv iv) := by
    unfold myProofOfInvitation
    rw [hiv, hsv]
  simp only [hmp, hsv]
  rw [hrej]
  simp only [Bool.false_eq_true, if_false]
  exact failurePost_failWithOut _ [] _ rfl

theorem receiveHelloCtx_team (ctx : Context) (claim : Option IdentityClaim)
    (proof : Option ProofOfInvitation) :
    (receiveHelloCtx ctx claim proof).team = ctx.team := rfl

theorem receiveHelloCtx_iHaveInvitation (ctx : Context) (claim : Option IdentityClaim)
    (proof : Option ProofOfInvitation) :
    iHaveInvitation (receiveHelloCtx ctx claim proof) = iHaveInvitation ctx := rfl

theorem c8_confirmIdentity (inv : InvPhase) (auth : AuthProgress) (ctx : Context)
    (claim : Option IdentityClaim) (proof : Option ProofOfInvitation) (msg : String)
    (hcf : confirmError ctx.team claim = some msg) :
    FailurePost (mstep (.connecting inv auth) ctx (.hello claim proof)) := by
  show FailurePost (helloRest inv auth (receiveHelloCtx ctx claim proof) claim proof)
  unfold helloRest
  rw [receiveHelloCtx_team, hcf]
  exact failurePost_failWithOut _ [] _ rfl

theorem c8_neitherIsMember (inv : InvPhase) (auth : AuthProgress) (ctx : Context)
    (claim : Option IdentityClaim) (p : ProofOfInvitation)
    (hcf : confirmError ctx.team claim = none) (hinv : iHaveInvitation ctx = true) :
    FailurePost (mstep (.connecting inv auth) ctx (.hello claim (some p))) := by
  show FailurePost (helloRest inv auth (receiveHelloCtx ctx claim (some p)) claim (some p))
  unfold helloRest
  rw [receiveHelloCtx_team, hcf]
  unfold handleInvitationPart
  rw [receiveHelloCtx_iHaveInvitation, hinv]
  simp only [if_true]
  exact failurePost_failWithOut _ [] _ rfl

theorem c8_rejectInvitation (inv : InvPhase) (auth : AuthProgress) (ctx : Context)
    (claim : Option IdentityClaim) (p : ProofOfInvitation) (t : Team)
    (hcf : confirmError ctx.team claim = none) (hinv : iHaveInvitation ctx = false)
    (ht : ctx.team = some t) (hval : (t.validateInvitationFn p).isValid = false) :
    FailurePost (mstep (.connecting inv auth) ctx (.hello claim (some p))) := by
  show FailurePost (helloRest inv auth (receiveHelloCtx ctx claim (some p)) claim (some p))
  unfold helloRest
  rw [receiveHelloCtx_team, hcf]
  unfold handleInvitationPart
  rw [receiveHelloCtx_iHaveInvitation, hinv]
  simp only [Bool.false_eq_true, if_false]
  rw [receiveHelloCtx_team, ht]
  simp only [hval, Bool.false_eq_true, if_false]
  exact failurePost_failWithOut _ [] _ rfl

theorem lookupQ_index {q : List NumberedMessage} {n : Nat} {m : NumberedMessage}
    (h : lookupQ q n = some m) : m.index = n := by
  unfold lookupQ at h
  induction q with
  | nil => cases h
  | cons x xs ih =>
    rw [List.find?_cons] at h
    cases hx : (x.index == n) with
    | true =>
      rw [hx] at h
      dsimp only at h
      cases h
      simpa using hx
    | false =>
      rw [hx] at h
      dsimp only at h
      exact ih h

theorem drainQ_spec (fuel : Nat) : ∀ (q : List NumberedMessage) (n : Nat),
    ((drainQ fuel q n).2.2).map (fun m => m.index)
      = List.range' n ((drainQ fuel q n).2.2).length ∧
    (drainQ fuel q n).2.1 = n + ((drainQ fuel q n).2.2).length := by
  induction fuel with
  | zero => intro q n; exact ⟨rfl, rfl⟩
  | succ fuel ih =>
    intro q n
    unfold drainQ
    split
    · rename_i m hlk
      rcases hdr : drainQ fuel (removeQ q n) (n + 1) with ⟨q2, n2, ms⟩
      simp only [hdr]
      have hidx : m.index = n := lookupQ_index hlk
      have h3 := ih (removeQ q n) (n + 1)
      rw [hdr] at h3
      dsimp only at h3
      constructor
      · simp only [List.map_cons, List.length_cons, hidx]
        rw [List.range'_succ]
        simp only [List.cons.injEq, true_and]
        exact h3.1
      · simp only [List.length_cons]
        omega
    · exact ⟨rfl, rfl⟩

theorem orderedDelivery_spec (q : List NumberedMessage) (next : Nat) (m : NumberedMessage) :
    ((orderedDelivery q next m).2.2).map (fun m => m.index)
      = List.range' next ((orderedDelivery q next m).2.2).length ∧
    (orderedDelivery q next m).2.1 = next + ((orderedDelivery q next m).2.2).length := by
  unfold orderedDelivery
  split
  · exact ⟨rfl, rfl⟩
  · split
    · exact ⟨rfl, rfl⟩
    · rename_i hlt hgt
      have hidx : m.index = next := by omega
      rcases hdr : drainQ q.length q (next + 1) with ⟨q2, n2, ms⟩
      simp only [hdr]
      have h3 := drainQ_spec q.length q (next + 1)
      rw [hdr] at h3
      dsimp only at h3
      constructor
      · simp only [List.map_cons, List.length_cons, hidx]
        rw [List.range'_succ]
        simp only [List.cons.injEq, true_and]
        exact h3.1
      · simp only [List.length_cons]
        omega

theorem foldl_sendMessage_fields (l : List Message) (a : Conn) :
    (l.foldl Conn.sendMessage a).deliveredLog = a.deliveredLog ∧
    (l.foldl Conn.sendMessage a).nextExpected = a.nextExpected ∧
    (l.foldl Conn.sendMessage a).incomingMessageQueue = a.incomingMessageQueue := by
  induction l generalizing a with
  | nil => exact ⟨rfl, rfl, rfl⟩
  | cons x xs ih =>
    rw [List.foldl_cons]
    exact ih _

theorem machineSend_fields (c : Conn) (m : Message) :
    (c.machineSend m).deliveredLog = c.deliveredLog ∧
    (c.machineSend m).nextExpected = c.nextExpected ∧
    (c.machineSend m).incomingMessageQueue = c.incomingMessageQueue := by
  unfold Conn.machineSend
  exact foldl_sendMessage_fields _ _

theorem forward_fold (l : List NumberedMessage) :
    ∀ (a : Conn) (s : Nat),
    l.map (fun m => m.index) = List.range' s l.length →
    a.deliveredLog.map (fun m => m.index) = List.range a.deliveredLog.length →
    ((a.started && !a.done) = true → a.deliveredLog.length = s) →
    a.deliveredLog.length ≤ s →
    (l.foldl forwardOne a).deliveredLog.map (fun m => m.index)
      = List.range (l.foldl forwardOne a).deliveredLog.length ∧
    (l.foldl forwardOne a).deliveredLog.length ≤ s + l.length ∧
    (((l.foldl forwardOne a).started && !(l.foldl forwardOne a).done) = true →
      (l.foldl forwardOne a).deliveredLog.length = s + l.length) ∧
    (l.foldl forwardOne a).nextExpected = a.nextExpected ∧
    (l.foldl forwardOne a).incomingMessageQueue = a.incomingMessageQueue := by
  induction l with
  | nil =>
    intro a s h1 h2 h3 h4
    exact ⟨h2, by simpa using h4, by simpa using h3, rfl, rfl⟩
  | cons x xs ih =>
    intro a s h1 h2 h3 h4
    simp only [List.map_cons, List.length_cons, List.range'_succ] at h1
    injection h1 with hx1 hx2
    rw [List.foldl_cons]
    by_cases hfl : (a.started && !a.done) = true
    · have hlen : a.deliveredLog.length = s := h3 hfl
      have hstep : forwardOne a x
          = { a.machineSend x.msg with deliveredLog := (a.machineSend x.msg).deliveredLog ++ [x] } := by
        unfold forwardOne
        rw [hfl]
        simp
      have hdl : (forwardOne a x).deliveredLog = a.deliveredLog ++ [x] := by
        rw [hstep]
        simp [(machineSend_fields a x.msg).1]
      have hne : (forwardOne a x).nextExpected = a.nextExpected := by
        rw [hstep]
        simp [(machineSend_fields a x.msg).2.1]
      have hqe : (forwardOne a x).incomingMessageQueue = a.incomingMessageQueue := by
        rw [hstep]
        simp [(machineSend_fields a x.msg).2.2]
      have hlen' : (forwardOne a x).deliveredLog.length = s + 1 := by
        rw [hdl]
        simp [hlen]
      have hlog' : (forwardOne a x).deliveredLog.map (fun m => m.index)
          = List.range (forwardOne a x).deliveredLog.length := by
        rw [hdl]
        simp only [List.map_append, List.map_cons, List.map_nil, List.length_append,
          List.length_cons, List.length_nil]
        rw [h2, hx1, hlen]
        have harith : s + (0 + 1) = s + 1 := by omega
        rw [harith, List.range_succ]
      have hres := ih (forwardOne a x) (s + 1) hx2 hlog' (fun _ => hlen')
        (le_of_eq hlen')
      refine ⟨hres.1, ?_, ?_, ?_, ?_⟩
      · have h5 := hres.2.1
        simp only [List.length_cons]
        omega
      · intro hh
        have h5 := hres.2.2.1 hh
        simp only [List.length_cons]
        omega
      · rw [hres.2.2.2.1, hne]
      · rw [hres.2.2.2.2, hqe]
    · have hstep : forwardOne a x = a := by
        unfold forwardOne
        simp [hfl]
      rw [hstep]
      have hres := ih a (s + 1) hx2 h2 (fun hh => absurd hh hfl) (Nat.le_succ_of_le h4)
      refine ⟨hres.1, ?_, ?_, hres.2.2.2.1, hres.2.2.2.2⟩
      · have h5 := hres.2.1
        simp only [List.length_cons]
        omega
      · intro hh
        have h5 := hres.2.2.1 hh
        simp only [List.length_cons]
        omega



theorem deliver_inv (c : Conn) (m : NumberedMessage)
    (h1 : c.deliveredLog.map (fun m => m.index) = List.range c.deliveredLog.length)
    (h2 : c.deliveredLog.length ≤ c.nextExpected)
    (h3 : (c.started && !c.done) = true → c.deliveredLog.length = c.nextExpected) :
    (c.deliver m).deliveredLog.map (fun m => m.index)
      = List.range (c.deliver m).deliveredLog.length ∧
    (c.deliver m).deliveredLog.length ≤ (c.deliver m).nextExpected ∧
    (((c.deliver m).started && !(c.deliver m).done) = true →
      (c.deliver m).deliveredLog.length = (c.deliver m).nextExpected) := by
  unfold Conn.deliver
  rcases hod : orderedDelivery c.incomingMessageQueue c.nextExpected m with ⟨q2, n2, ready⟩
  have hspec := orderedDelivery_spec c.incomingMessageQueue c.nextExpected m
  rw [hod] at hspec
  dsimp only at hspec
  simp only [hod]
  have hff := forward_fold ready
    { c with incomingMessageQueue := q2, nextExpected := n2 } c.nextExpected
    hspec.1 h1 h3 h2
  refine ⟨hff.1, ?_, ?_⟩
  · rw [hff.2.2.2.1]
    dsimp only
    have h6 := hff.2.1
    omega
  · intro hh
    rw [hff.2.2.2.1]
    dsimp only
    have h6 := hff.2.2.1 hh
    omega

theorem deliver_fold_inv (l : List NumberedMessage) :
    ∀ (c : Conn),
    c.deliveredLog.map (fun m => m.index) = List.range c.deliveredLog.length →
    c.deliveredLog.length ≤ c.nextExpected →
    ((c.started && !c.done) = true → c.deliveredLog.length = c.nextExpected) →
    (l.foldl Conn.deliver c).deliveredLog.map (fun m => m.index)
      = List.range (l.foldl Conn.deliver c).deliveredLog.length := by
  induction l with
  | nil => intro c hh1 hh2 hh3; exact hh1
  | cons x xs ih =>
    intro c hh1 hh2 hh3
    rw [List.foldl_cons]
    have hstep := deliver_inv c x hh1 hh2 hh3
    exact ih (c.deliver x) hstep.1 hstep.2.1 hstep.2.2

/-! ## Claims -/

/-- C1: the key-derivation function is symmetric in its two seeds and its
output is 256-bit, so two peers that each reach `connected` — one having
contributed `s1` and decrypted `s2`, the other having contributed `s2` and
decrypted `s1`, whichever role each played — compute the same session key. -/
theorem C1_deriveSharedKey_symmetric (s1 s2 : String) :
    deriveSharedKey s1 s2 = deriveSharedKey s2 s1 ∧
    deriveSharedKey s1 s2 < 2 ^ 256 ∧
    (∀ ctxA ctxB : Context,
      ctxA.seed = some s1 → ctxB.seed = some s2 →
      ctxA.user.isSome = true → ctxA.peer.isSome = true →
      ctxB.user.isSome = true → ctxB.peer.isSome = true →
      (mstep .negotiating ctxA (.seed ⟨s2, true⟩)).ctx.sessionKey
          = some (deriveSharedKey s1 s2) ∧
      (mstep .negotiating ctxB (.seed ⟨s1, true⟩)).ctx.sessionKey
          = some (deriveSharedKey s1 s2)) := by
  refine ⟨deriveSharedKey_comm s1 s2, hash256_lt _, ?_⟩
  intro ctxA ctxB hsA hsB huA hpA huB hpB
  obtain ⟨uA, huA'⟩ := Option.isSome_iff_exists.mp huA
  obtain ⟨pA, hpA'⟩ := Option.isSome_iff_exists.mp hpA
  obtain ⟨uB, huB'⟩ := Option.isSome_iff_exists.mp huB
  obtain ⟨pB, hpB'⟩ := Option.isSome_iff_exists.mp hpB
  constructor
  · simp [mstep, handleSeed, huA', hpA', hsA, asymmetricDecrypt]
  · simp [mstep, handleSeed, huB', hpB', hsB, asymmetricDecrypt,
      deriveSharedKey_comm s1 s2]

/-- C1 witness: concrete peers in `negotiating` with seeds `"seedA"` and
`"seedB"` both derive the same key. -/
theorem C1_witness :
    (mstep .negotiating exNegCtxA (.seed ⟨"seedB", true⟩)).ctx.sessionKey
        = some (deriveSharedKey "seedA" "seedB") ∧
    (mstep .negotiating exNegCtxB (.seed ⟨"seedA", true⟩)).ctx.sessionKey
        = some (deriveSharedKey "seedA" "seedB") :=
  (C1_deriveSharedKey_symmetric "seedA" "seedB").2.2 exNegCtxA exNegCtxB
    rfl rfl rfl rfl rfl rfl

/-- C5: a second `stop()` is observably a no-op — it leaves the connection
exactly as the first `stop()` left it; in particular no DISCONNECT is added
to the outbox and no further event reaches the machine. -/
theorem C5_stop_idempotent (c : Conn) :
    Conn.stop (Conn.stop c) = Conn.stop c ∧
    (Conn.stop (Conn.stop c)).outbox = (Conn.stop c).outbox ∧
    (Conn.stop (Conn.stop c)).fsmLog = (Conn.stop c).fsmLog := by
  have h : Conn.stop (Conn.stop c) = Conn.stop c := stop_of_done (stop_done c)
  exact ⟨h, by rw [h], by rw [h]⟩

/-- C6: `sendHello` attaches the proof of invitation exactly when the side
has an invitee and no team yet; every HELLO built after `team` is populated
omits the proof. -/
theorem C6_hello_omits_proof_once_joined (ctx : Context) :
    (ctx.team.isSome = true → helloProofField (sendHelloMessage ctx) = none) ∧
    (∀ p, helloProofField (sendHelloMessage ctx) = some p →
      hasInvitee ctx = true ∧ ctx.team = none) := by
  constructor
  · intro ht
    obtain ⟨t, h⟩ := Option.isSome_iff_exists.mp ht
    simp [sendHelloMessage, helloProofField, h]
  · intro p hp
    by_cases h : (hasInvitee ctx && ctx.team.isNone) = true
    · rw [Bool.and_eq_true] at h
      exact ⟨h.1, Option.isNone_iff_eq_none.mp h.2⟩
    · simp [sendHelloMessage, helloProofField, h] at hp

/-- C6 witness: a member context (team present) produces a HELLO without a
proof of invitation. -/
theorem C6_witness : helloProofField (sendHelloMessage exCtxMember) = none :=
  (C6_hello_omits_proof_once_joined exCtxMember).1 rfl

/-- C9: constructing a connection for an unjoined invitee who carries a user
identity replaces `context.user.keys` by the starter keys derived from the
invitee and invitation seed, before the machine starts, and modifies no
other field of the supplied context. -/
theorem C9_constructor_installs_starter_keys
    (pn : Option String) (ctx : Context) (inv : Invitee) (sv : String) (u : User)
    (ht : ctx.team = none) (hi : ctx.invitee = some inv)
    (hs : ctx.invitationSeed = some sv) (hu : ctx.user = some u) :
    (mkConnection pn ctx).ctx
        = { ctx with user := some { u with keys := generateStarterKeys inv sv } } ∧
    (mkConnection pn ctx).started = false := by
  constructor
  · show starterContext ctx = _
    unfold starterContext
    rw [ht, hi, hs, hu]
  · rfl

/-- C9 witness: the concrete invitee context gets the starter keys derived
from `(bob, "passw0rd")`. -/
theorem C9_witness :
    (mkConnection none exCtxInvitee).ctx
        = { exCtxInvitee with
            user := some { userName := "bob",
                           keys := generateStarterKeys ⟨.MEMBER, "bob"⟩ "passw0rd" } } ∧
    (mkConnection none exCtxInvitee).started = false :=
  C9_constructor_installs_starter_keys none exCtxInvitee ⟨.MEMBER, "bob"⟩ "passw0rd"
    ⟨"bob", exKeys "bob.provisional"⟩ rfl rfl rfl rfl

/-- C10: before `start()`, the `state` getter answers `disconnected` and the
`userName`/`peerName` getters answer "(not started)", but the `context`
getter throws, and therefore the `team`, `sessionKey`, `user` and `error`
getters (which read `this.context`) throw as well. -/
theorem C10_getters_before_start (pn : Option String) (ctx : Context) :
    (mkConnection pn ctx).stateGet = .disconnected ∧
    (mkConnection pn ctx).userNameGet = "(not started)" ∧
    (mkConnection pn ctx).peerNameGet = "(not started)" ∧
    (mkConnection pn ctx).contextGet
        = .error "Cannot get context; machine not started" ∧
    (mkConnection pn ctx).userGet
        = .error "Cannot get context; machine not started" ∧
    (mkConnection pn ctx).errorGet
        = .error "Cannot get context; machine not started" ∧
    (mkConnection pn ctx).teamGet
        = .error "Cannot get context; machine not started" ∧
    (mkConnection pn ctx).sessionKeyGet
        = .error "Cannot get context; machine not started" :=
  ⟨rfl, rfl, rfl, rfl, rfl, rfl, rfl, rfl⟩


/-- C2 counterexample: along an explicit happy-path run the machine reaches
`connected` with a session key; the next peer UPDATE (with a new head)
re-enters `synchronizing` while the session key stays set, so "sessionKey is
defined iff the FSM state is connected" fails in the only-if direction. -/
theorem C2_counterexample :
    (machineRun ⟨.disconnected, exCtxMember, false⟩ happyTrace).state = .connected ∧
    ((machineRun ⟨.disconnected, exCtxMember, false⟩
        (happyTrace ++ [divergingUpdate])).ctx.sessionKey).isSome = true ∧
    (machineRun ⟨.disconnected, exCtxMember, false⟩
        (happyTrace ++ [divergingUpdate])).state = .synchronizing ∧
    (machineRun ⟨.disconnected, exCtxMember, false⟩
        (happyTrace ++ [divergingUpdate])).state ≠ .connected := by
  refine ⟨by decide, by decide, by decide, by decide⟩

/-- C2 amended: for every reachable machine state of a run started with no
session key, `connected` implies the session key is defined, and once the
session key holds a value it is never reassigned for the rest of the run
(re-entries into `synchronizing`/`negotiating` keep it); the original
only-if direction fails, see the counterexample. -/
theorem C2_sessionKey_invariant_amended (ctx0 : Context) (ms ms2 : List Message)
    (k : Nat) (h0 : ctx0.sessionKey = none) :
    ((machineRun ⟨.disconnected, ctx0, false⟩ ms).state = .connected →
      ((machineRun ⟨.disconnected, ctx0, false⟩ ms).ctx.sessionKey).isSome = true) ∧
    ((machineRun ⟨.disconnected, ctx0, false⟩ ms).ctx.sessionKey = some k →
      (machineRun (machineRun ⟨.disconnected, ctx0, false⟩ ms) ms2).ctx.sessionKey
        = some k) := by
  have hinv : KeyInv ⟨.disconnected, ctx0, false⟩ := keyInv_disconnected h0 false
  have h1 := machineRun_keyInv ms _ hinv
  exact ⟨h1.2.1, fun hk => machineRun_keyPres ms2 _ k h1 hk⟩

/-- C2 witness: the amended invariant applied to the concrete happy-path run. -/
theorem C2_witness :
    ((machineRun ⟨.disconnected, exCtxMember, false⟩ happyTrace).ctx.sessionKey).isSome
      = true :=
  (C2_sessionKey_invariant_amended exCtxMember happyTrace [] 0 rfl).1 (by decide)


/-- C4: a machine step out of a non-terminal state that lands in `failure`
reports the machine done; and once the machine is done, `deliver` forwards
nothing and leaves state, context and all observable traces unchanged (only
the inbound buffer is still maintained). -/
theorem C4_terminal_accepts_nothing :
    (∀ (s : MState) (ctx : Context) (m : Message), s ≠ .failure →
      (mstep s ctx m).state = .failure → (mstep s ctx m).done = true) ∧
    (∀ (c : Conn) (m : NumberedMessage), c.done = true →
      (c.deliver m).mstate = c.mstate ∧ (c.deliver m).ctx = c.ctx ∧
      (c.deliver m).fsmLog = c.fsmLog ∧ (c.deliver m).deliveredLog = c.deliveredLog ∧
      (c.deliver m).outbox = c.outbox ∧ (c.deliver m).events = c.events ∧
      (c.deliver m).done = true) := by
  constructor
  · exact mstep_failure_done
  · intro c m hc
    rw [deliver_done hc]
    exact ⟨rfl, rfl, rfl, rfl, rfl, rfl, hc⟩

/-- C4 witness: a stopped connection ignores a delivered message. -/
theorem C4_witness :
    ((((mkConnection none exCtxMember).start []).stop).deliver ⟨5, .ready⟩).mstate
        = (((mkConnection none exCtxMember).start []).stop).mstate ∧
    ((((mkConnection none exCtxMember).start []).stop).deliver ⟨5, .ready⟩).ctx
        = (((mkConnection none exCtxMember).start []).stop).ctx ∧
    ((((mkConnection none exCtxMember).start []).stop).deliver ⟨5, .ready⟩).fsmLog
        = (((mkConnection none exCtxMember).start []).stop).fsmLog ∧
    ((((mkConnection none exCtxMember).start []).stop).deliver ⟨5, .ready⟩).deliveredLog
        = (((mkConnection none exCtxMember).start []).stop).deliveredLog ∧
    ((((mkConnection none exCtxMember).start []).stop).deliver ⟨5, .ready⟩).outbox
        = (((mkConnection none exCtxMember).start []).stop).outbox ∧
    ((((mkConnection none exCtxMember).start []).stop).deliver ⟨5, .ready⟩).events
        = (((mkConnection none exCtxMember).start []).stop).events ∧
    ((((mkConnection none exCtxMember).start []).stop).deliver ⟨5, .ready⟩).done = true :=
  C4_terminal_accepts_nothing.2 (((mkConnection none exCtxMember).start []).stop)
    ⟨5, .ready⟩ rfl

/-- C7 counterexample: on an already-started connection, a second `start`
with a stored message emits no READY to the peer and replays nothing through
`deliver`; it only sends RECONNECT to the machine.  This refutes the claim
that every `start()` call emits READY and replays the provided messages. -/
theorem C7_counterexample :
    ((((mkConnection none exCtxMember).start []).start [⟨0, .ready⟩]).outbox.filter
        (fun nm => isReadyMsg nm.msg)).length
      = ((((mkConnection none exCtxMember).start []).outbox.filter
        (fun nm => isReadyMsg nm.msg))).length ∧
    (((mkConnection none exCtxMember).start []).start [⟨0, .ready⟩]).deliveredLog
      = ((mkConnection none exCtxMember).start []).deliveredLog ∧
    (((mkConnection none exCtxMember).start []).start [⟨0, .ready⟩]).fsmLog
      = ((mkConnection none exCtxMember).start []).fsmLog ++ [Message.reconnect] := by
  refine ⟨rfl, rfl, rfl⟩

/-- C7 amended: on a fresh connection, `start(stored)` starts the machine,
emits READY to the peer and replays the stored messages in order through
`deliver`; on an already-started connection it only sends RECONNECT to the
machine. -/
theorem C7_start_amended (c : Conn) (msgs : List NumberedMessage) :
    (c.started = false →
      c.start msgs = msgs.foldl Conn.deliver (Conn.sendMessage { c with started := true } .ready)) ∧
    (c.started = false → (c.start msgs).started = true) ∧
    (c.started = true → c.start msgs = c.machineSend .reconnect) := by
  refine ⟨fun h => ?_, fun h => ?_, fun h => ?_⟩
  · unfold Conn.start
    rw [h]
    rfl
  · unfold Conn.start
    rw [h]
    show (msgs.foldl Conn.deliver (Conn.sendMessage { c with started := true } .ready)).started = true
    rw [foldl_deliver_started]
    rfl
  · unfold Conn.start
    rw [h]
    rfl

/-- C7 amended witness: both branches at concrete connections. -/
theorem C7_witness :
    ((mkConnection none exCtxMember).start []).started = true ∧
    (((mkConnection none exCtxMember).start []).start []
      = ((mkConnection none exCtxMember).start []).machineSend .reconnect) :=
  ⟨(C7_start_amended (mkConnection none exCtxMember) []).2.1 rfl,
   (C7_start_amended ((mkConnection none exCtxMember).start []) []).2.2 rfl⟩

/-- C8: every local failure path — `rejectIdentityProof`, `failNeitherIsMember`,
`rejectInvitation`, `rejectTeam`, `failPeerWasRemoved`, `failTimeout`, and the
`confirmIdentityExists` verdicts — records an error payload in the context,
emits exactly one outbound ERROR to the peer, rests in terminal `failure`,
and fires `onDisconnected`. -/
theorem C8_failure_paths :
    (∀ (inv : InvPhase) (auth : AuthProgress) (ctx : Context) (ch : Challenge)
        (pf : String) (t : Team), ctx.team = some t →
        t.verifyIdentityProofFn ch pf = false →
        FailurePost (mstep (.connecting inv auth) ctx (.proveIdentity ch pf))) ∧
    (∀ (inv : InvPhase) (auth : AuthProgress) (ctx : Context)
        (claim : Option IdentityClaim) (p : ProofOfInvitation),
        confirmError ctx.team claim = none → iHaveInvitation ctx = true →
        FailurePost (mstep (.connecting inv auth) ctx (.hello claim (some p)))) ∧
    (∀ (inv : InvPhase) (auth : AuthProgress) (ctx : Context)
        (claim : Option IdentityClaim) (p : ProofOfInvitation) (t : Team),
        confirmError ctx.team claim = none → iHaveInvitation ctx = false →
        ctx.team = some t → (t.validateInvitationFn p).isValid = false →
        FailurePost (mstep (.connecting inv auth) ctx (.hello claim (some p)))) ∧
    (∀ (auth : AuthProgress) (ctx : Context) (chain : Team) (iv : Invitee) (sv : String),
        ctx.invitee = some iv → ctx.invitationSeed = some sv →
        chain.hasInvitationFn (generateProof sv iv) = false →
        FailurePost (mstep (.connecting .awaitingTeam auth) ctx (.acceptInvitation chain))) ∧
    (∀ (ctx : Context) (rt head : Hash) (hashes : List Hash) (t : Team) (p : Member),
        ctx.team = some t → ctx.peer = some p → t.has p.userName = false →
        FailurePost (mstep .synchronizing ctx (.update rt head hashes))) ∧
    (∀ (s : MState) (ctx : Context), s ≠ .failure →
        FailurePost (mstep s ctx .timeout)) ∧
    (∀ (inv : InvPhase) (auth : AuthProgress) (ctx : Context)
        (claim : Option IdentityClaim) (proof : Option ProofOfInvitation) (msg : String),
        confirmError ctx.team claim = some msg →
        FailurePost (mstep (.connecting inv auth) ctx (.hello claim proof))) :=
  ⟨fun inv auth ctx ch pf t ht hv => c8_rejectIdentityProof inv auth ctx ch pf t ht hv,
   fun inv auth ctx claim p hcf hinv => c8_neitherIsMember inv auth ctx claim p hcf hinv,
   fun inv auth ctx claim p t hcf hinv ht hval =>
     c8_rejectInvitation inv auth ctx claim p t hcf hinv ht hval,
   fun auth ctx chain iv sv hiv hsv hrej => c8_rejectTeam auth ctx chain iv sv hiv hsv hrej,
   fun ctx rt head hashes t p ht hp hrm => c8_peerWasRemoved ctx rt head hashes t p ht hp hrm,
   fun s ctx hs => c8_timeout s ctx hs,
   fun inv auth ctx claim proof msg hcf => c8_confirmIdentity inv auth ctx claim proof msg hcf⟩

/-- C8 witness: a phase timeout from the initial state takes the failure
path with its full postcondition. -/
theorem C8_witness : FailurePost (mstep .disconnected exCtxMember .timeout) :=
  C8_failure_paths.2.2.2.2.2.1 .disconnected exCtxMember (by decide)

/-- C3: across any arrival permutation, the messages forwarded to the FSM by
`deliver` carry exactly the contiguous indices 0,1,2,... in strictly
increasing order — no gaps, no duplicates (their indices form `range k`);
concretely, delivering indices 1 then 0 makes the FSM see 0 then 1, and a
duplicate of an already-consumed index is dropped. -/
theorem C3_ordered_delivery :
    (∀ (pn : Option String) (ctx : Context) (arrivals : List NumberedMessage),
      (arrivals.foldl Conn.deliver ((mkConnection pn ctx).start [])).deliveredLog.map
          (fun m => m.index)
        = List.range
            (arrivals.foldl Conn.deliver
              ((mkConnection pn ctx).start [])).deliveredLog.length) ∧
    ((((mkConnection none exCtxMember).start []).deliver
        ⟨1, .hello (some bobClaim) none⟩).deliver ⟨0, .ready⟩).deliveredLog
      = [⟨0, .ready⟩, ⟨1, .hello (some bobClaim) none⟩] ∧
    ((((mkConnection none exCtxMember).start []).deliver ⟨0, .ready⟩).deliver
        ⟨0, .ready⟩).deliveredLog = [⟨0, .ready⟩] := by
  refine ⟨?_, ?_, ?_⟩
  · intro pn ctx arrivals
    exact deliver_fold_inv arrivals _ rfl (Nat.le_refl _) (fun _ => rfl)
  · rfl
  · rfl

end Auth
